import Mathlib

/-!
Verification of the AP2 financial-report extraction core against its source.

The definitions below are a shallow embedding of the Python source files
`pdf_parser_enhanced.py`, `pdf_parser.py`, `config.py` and `smart_extractor.py`.
Machine numbers are modelled as `Nat`/`Int`/`ℚ` (Python ints are unbounded;
the float values appearing in this code are small decimals, modelled exactly
as rationals).  I/O (opening PDFs, camelot/fitz calls, Excel writing) is out
of the embedding: functions take the data those calls would produce.
-/

namespace AP2

/-! ### Python character classes

`isPySpace` models the whitespace class used by `str.strip()` and by the
regex class `\s` on the character repertoire that occurs in this domain:
space (32), tab (9), LF (10), CR (13), VT (11), FF (12) and the no-break
space U+00A0 (160); other unicode whitespace never appears in these
documents. -/

def isPySpace (c : Char) : Bool :=
  c.toNat = 32 || c.toNat = 9 || c.toNat = 10 || c.toNat = 13 ||
  c.toNat = 11 || c.toNat = 12 || c.toNat = 160

/-- Python regex `\w` (ASCII range, as relevant for these labels):
letters, digits, underscore (95). -/
def isWordChar (c : Char) : Bool :=
  (65 ≤ c.toNat && c.toNat ≤ 90) || (97 ≤ c.toNat && c.toNat ≤ 122) ||
  (48 ≤ c.toNat && c.toNat ≤ 57) || c.toNat = 95

/-- One character of `str.lower()` (ASCII letters; labels in this domain are ASCII). -/
def lowerChar (c : Char) : Char :=
  if 65 ≤ c.toNat && c.toNat ≤ 90 then Char.ofNat (c.toNat + 32) else c

/-- `str.lower()`. -/
def pyLower (s : String) : String :=
  ⟨s.data.map lowerChar⟩

/-- Drop whitespace from the end of a list (via reversal). -/
def dropWhileEnd (p : Char → Bool) (l : List Char) : List Char :=
  (l.reverse.dropWhile p).reverse

/-- `str.strip()` on the underlying character list. -/
def pyStripL (l : List Char) : List Char :=
  dropWhileEnd isPySpace (l.dropWhile isPySpace)

/-- `str.strip()`. -/
def pyStrip (s : String) : String :=
  ⟨pyStripL s.data⟩

/-! ### Number parsing: models of Python `int()` and `float()`

`int(s)` strips whitespace, takes an optional sign and a nonempty digit run.
`float(s)` strips whitespace and accepts `[sign] digits [. digits] [exponent]`
with at least one mantissa digit.  (CPython additionally accepts underscore
digit grouping and the `inf`/`nan` literals; neither occurs in this domain,
and the callers below only reach `float` on '.'-containing strings, where the
`inf`/`nan` literals are rejected by CPython as well.) -/

def digitVal (c : Char) : Nat := c.toNat - 48

def natOfDigits (ds : List Char) : Nat :=
  ds.foldl (fun acc c => acc * 10 + digitVal c) 0

/-- Parse a nonempty all-digit run. -/
def natRun? (ds : List Char) : Option Nat :=
  if ds ≠ [] ∧ ds.all Char.isDigit then some (natOfDigits ds) else none

/-- Python `int(s)`, on the strings produced by the callers below. -/
def pyInt (s : String) : Option Int :=
  let cs := pyStripL s.data
  if cs.head? = some '+' then (natRun? cs.tail).map Int.ofNat
  else if cs.head? = some '-' then (natRun? cs.tail).map (fun n => -Int.ofNat n)
  else (natRun? cs).map Int.ofNat

/-- Signed digit run of a float exponent. -/
def pyExpSigned (r : List Char) : Option Int :=
  if r.head? = some '+' then (natRun? r.tail).map Int.ofNat
  else if r.head? = some '-' then (natRun? r.tail).map (fun n => -Int.ofNat n)
  else (natRun? r).map Int.ofNat

/-- Exponent suffix of a float literal: empty, or `e`/`E` then signed digits. -/
def pyExp? (cs : List Char) : Option Int :=
  match cs with
  | [] => some 0
  | c :: r => if c = 'e' || c = 'E' then pyExpSigned r else none

/-- Exact value of `intd . fracd`. -/
def mantissa (intd fracd : List Char) : ℚ :=
  (natOfDigits intd : ℚ) + (natOfDigits fracd : ℚ) / (10 : ℚ) ^ fracd.length

/-- Unsigned body of a float literal. -/
def pyFloatCore (cs : List Char) : Option ℚ :=
  let intd := cs.takeWhile Char.isDigit
  let r1 := cs.dropWhile Char.isDigit
  if r1.head? = some '.' then
    let r2 := r1.tail
    let fracd := r2.takeWhile Char.isDigit
    let r3 := r2.dropWhile Char.isDigit
    if intd.isEmpty && fracd.isEmpty then none
    else (pyExp? r3).map (fun e => mantissa intd fracd * (10 : ℚ) ^ e)
  else
    if intd.isEmpty then none
    else (pyExp? r1).map (fun e => mantissa intd [] * (10 : ℚ) ^ e)

/-- Python `float(s)` (finite values; see the note above). -/
def pyFloat (s : String) : Option ℚ :=
  let cs := pyStripL s.data
  if cs.head? = some '+' then pyFloatCore cs.tail
  else if cs.head? = some '-' then (pyFloatCore cs.tail).map Neg.neg
  else pyFloatCore cs

/-- Python `int(float-value)`: truncation toward zero. -/
def pyTrunc (q : ℚ) : Int :=
  if q < 0 then ⌈q⌉ else ⌊q⌋

/-! ### `clean_number_string` (pdf_parser_enhanced.py, lines 103–135)

The cell argument is `Option String`: `none` models a `NaN` cell
(`pd.isna(value_str)`).  The separators removed are exactly those of
`value_str.replace(' ', '').replace(',', '').replace('\xa0', '')`. -/

def isSep (c : Char) : Bool := c.toNat = 32 || c.toNat = 44 || c.toNat = 160

def clean_number_string (cell : Option String) (allow_decimal : Bool) : Option ℚ :=
  match cell with
  | none => none
  | some raw =>
    let s := pyStrip raw
    if s = "" || s = "-" then none
    else
      let cleaned : List Char := s.data.filter (fun c => !isSep c)
      if cleaned.contains '.' then
        match pyFloat ⟨cleaned⟩ with
        | some q => if allow_decimal then some q else some ((pyTrunc q : Int) : ℚ)
        | none => none
      else
        match pyInt ⟨cleaned⟩ with
        | some n => some ((n : Int) : ℚ)
        | none => none

/-! ### `extract_value` (pdf_parser.py, lines 32–55)

`none` models a non-string / `None` argument. -/

def extract_value (text : Option String) : Option ℚ :=
  match text with
  | none => none
  | some t =>
    if t = "" then none
    else
      let cleaned0 : List Char :=
        (pyStripL t.data).filter (fun c => !(c.toNat = 32 || c.toNat = 160))
      let isNeg : Bool := cleaned0.head? = some '-'
      let cleaned1 : List Char := if isNeg then cleaned0.tail else cleaned0
      let cleaned : List Char := cleaned1.filter (fun c => c.isDigit || c = '.')
      if cleaned = [] then none
      else
        match pyFloat ⟨cleaned⟩ with
        | some v => some (if isNeg then -v else v)
        | none => none

/-! ### Helper lemmas about the character-list utilities -/

theorem takeWhile_nil_of_all_false {p : Char → Bool} {l : List Char}
    (h : ∀ c ∈ l, p c = false) : l.takeWhile p = [] := by
  cases l with
  | nil => rfl
  | cons x xs => simp [List.takeWhile_cons, h x (by simp)]

theorem dropWhile_self_of_all_false {p : Char → Bool} {l : List Char}
    (h : ∀ c ∈ l, p c = false) : l.dropWhile p = l := by
  cases l with
  | nil => rfl
  | cons x xs => simp [List.dropWhile_cons, h x (by simp)]

theorem dropWhile_idem (p : Char → Bool) (l : List Char) :
    (l.dropWhile p).dropWhile p = l.dropWhile p := by
  induction l with
  | nil => rfl
  | cons x xs ih =>
    by_cases h : p x
    · simp [List.dropWhile_cons, h, ih]
    · simp [List.dropWhile_cons, h]

theorem mem_of_mem_pyStripL {c : Char} {l : List Char} (h : c ∈ pyStripL l) : c ∈ l := by
  unfold pyStripL dropWhileEnd at h
  rw [List.mem_reverse] at h
  have h2 := (List.dropWhile_suffix isPySpace).subset h
  rw [List.mem_reverse] at h2
  exact (List.dropWhile_suffix isPySpace).subset h2

/-- `str.strip()` removes an all-whitespace prefix and an all-whitespace suffix. -/
theorem pyStripL_decomp (l : List Char) :
    ∃ a b, l = a ++ pyStripL l ++ b ∧
      (∀ c ∈ a, isPySpace c = true) ∧ (∀ c ∈ b, isPySpace c = true) := by
  refine ⟨l.takeWhile isPySpace,
    ((l.dropWhile isPySpace).reverse.takeWhile isPySpace).reverse, ?_, ?_, ?_⟩
  · conv_lhs => rw [← List.takeWhile_append_dropWhile isPySpace l]
    rw [List.append_assoc]
    congr 1
    unfold pyStripL dropWhileEnd
    conv_lhs =>
      rw [← List.reverse_reverse (l.dropWhile isPySpace),
        ← List.takeWhile_append_dropWhile isPySpace (l.dropWhile isPySpace).reverse]
    rw [List.reverse_append]
  · intro c hc
    exact List.mem_takeWhile_imp hc
  · intro c hc
    rw [List.mem_reverse] at hc
    exact List.mem_takeWhile_imp hc

theorem pyStripL_self_of_no_space {l : List Char}
    (h : ∀ c ∈ l, isPySpace c = false) : pyStripL l = l := by
  unfold pyStripL dropWhileEnd
  rw [dropWhile_self_of_all_false h]
  rw [dropWhile_self_of_all_false (by intro c hc; exact h c (List.mem_reverse.mp hc))]
  exact List.reverse_reverse l

theorem filter_pyStripL_comm {q : Char → Bool} {l : List Char}
    (h : ∀ c ∈ l, isPySpace c = true → q c = false) :
    (pyStripL l).filter q = l.filter q := by
  obtain ⟨a, b, hl, ha, hb⟩ := pyStripL_decomp l
  conv_rhs => rw [hl]
  rw [List.filter_append, List.filter_append]
  have hA : a.filter q = [] := by
    rw [List.filter_eq_nil_iff]
    intro c hc
    have hcl : c ∈ l := by rw [hl]; simp [hc]
    simp [h c hcl (ha c hc)]
  have hB : b.filter q = [] := by
    rw [List.filter_eq_nil_iff]
    intro c hc
    have hcl : c ∈ l := by rw [hl]; simp [hc]
    simp [h c hcl (hb c hc)]
  simp [hA, hB]

/-! ### Character-class facts -/

theorem toNat_bounds_of_isDigit {c : Char} (h : c.isDigit = true) :
    48 ≤ c.toNat ∧ c.toNat ≤ 57 := by
  simp only [Char.isDigit, decide_eq_true_eq, Bool.and_eq_true] at h
  exact h

theorem not_pySpace_of_isDigit {c : Char} (h : c.isDigit = true) :
    isPySpace c = false := by
  obtain ⟨h1, h2⟩ := toNat_bounds_of_isDigit h
  simp only [isPySpace, Bool.or_eq_false_iff, decide_eq_false_iff_not]
  omega

theorem not_sep_of_isDigit {c : Char} (h : c.isDigit = true) : isSep c = false := by
  obtain ⟨h1, h2⟩ := toNat_bounds_of_isDigit h
  simp only [isSep, Bool.or_eq_false_iff, decide_eq_false_iff_not]
  omega

theorem ne_char_of_isDigit {c : Char} (h : c.isDigit = true) (d : Char)
    (hd : d.toNat < 48 ∨ 57 < d.toNat) : c ≠ d := by
  obtain ⟨h1, h2⟩ := toNat_bounds_of_isDigit h
  intro he
  subst he
  omega

/-! ### No-digit inputs are rejected by the numeric parsers -/

theorem natRun?_none_of_no_digit {ds : List Char}
    (h : ∀ c ∈ ds, c.isDigit = false) : natRun? ds = none := by
  cases ds with
  | nil => rfl
  | cons x xs =>
    have hx := h x (by simp)
    simp [natRun?, List.all_cons, hx]

theorem pyInt_none_of_no_digit {s : String}
    (h : ∀ c ∈ s.data, c.isDigit = false) : pyInt s = none := by
  have hsub : ∀ c ∈ pyStripL s.data, c.isDigit = false := fun c hc =>
    h c (mem_of_mem_pyStripL hc)
  have htail : ∀ c ∈ (pyStripL s.data).tail, c.isDigit = false := fun c hc =>
    hsub c (List.mem_of_mem_tail hc)
  unfold pyInt
  simp only [natRun?_none_of_no_digit hsub, natRun?_none_of_no_digit htail, Option.map_none']
  split <;> [rfl; split <;> rfl]

theorem pyFloatCore_none_of_no_digit {cs : List Char}
    (h : ∀ c ∈ cs, c.isDigit = false) : pyFloatCore cs = none := by
  have hint : cs.takeWhile Char.isDigit = [] := takeWhile_nil_of_all_false h
  have hdrop : cs.dropWhile Char.isDigit = cs := dropWhile_self_of_all_false h
  unfold pyFloatCore
  rw [hint, hdrop]
  by_cases hh : cs.head? = some '.'
  · have htail : ∀ c ∈ cs.tail, c.isDigit = false := fun c hc =>
      h c (List.mem_of_mem_tail hc)
    have hfrac : cs.tail.takeWhile Char.isDigit = [] := takeWhile_nil_of_all_false htail
    simp [hh, hfrac]
  · simp [hh]

theorem pyFloat_none_of_no_digit {s : String}
    (h : ∀ c ∈ s.data, c.isDigit = false) : pyFloat s = none := by
  have hsub : ∀ c ∈ pyStripL s.data, c.isDigit = false := fun c hc =>
    h c (mem_of_mem_pyStripL hc)
  have htail : ∀ c ∈ (pyStripL s.data).tail, c.isDigit = false := fun c hc =>
    hsub c (List.mem_of_mem_tail hc)
  unfold pyFloat
  simp only [pyFloatCore_none_of_no_digit hsub, pyFloatCore_none_of_no_digit htail,
    Option.map_none']
  split <;> [rfl; split <;> rfl]


theorem takeWhile_self_of_all_true {p : Char → Bool} {l : List Char}
    (h : ∀ c ∈ l, p c = true) : l.takeWhile p = l := by
  induction l with
  | nil => rfl
  | cons x xs ih =>
    rw [List.takeWhile_cons, if_pos (h x (by simp))]
    rw [ih (fun c hc => h c (by simp [hc]))]

theorem dropWhile_nil_of_all_true {p : Char → Bool} {l : List Char}
    (h : ∀ c ∈ l, p c = true) : l.dropWhile p = [] := by
  induction l with
  | nil => rfl
  | cons x xs ih =>
    rw [List.dropWhile_cons, if_pos (h x (by simp))]
    exact ih (fun c hc => h c (by simp [hc]))

theorem isDigit_false_of_isSep {c : Char} (h : isSep c = true) : c.isDigit = false := by
  cases hd : c.isDigit
  · rfl
  · exfalso
    obtain ⟨h1, h2⟩ := toNat_bounds_of_isDigit hd
    simp only [isSep, Bool.or_eq_true, decide_eq_true_eq] at h
    omega

/-- Evaluation helper: `pyInt` on a plain digit string. -/
theorem pyInt_digits {ds : List Char} (hne : ds ≠ [])
    (hall : ∀ c ∈ ds, c.isDigit = true) :
    pyInt ⟨ds⟩ = some (Int.ofNat (natOfDigits ds)) := by
  have hns : ∀ c ∈ ds, isPySpace c = false := fun c hc => not_pySpace_of_isDigit (hall c hc)
  have hstrip : pyStripL ds = ds := pyStripL_self_of_no_space hns
  obtain ⟨d, ds', rfl⟩ := List.exists_cons_of_ne_nil hne
  have hd := hall d (by simp)
  have hd1 : d ≠ '+' := ne_char_of_isDigit hd '+' (by left; decide)
  have hd2 : d ≠ '-' := ne_char_of_isDigit hd '-' (by left; decide)
  have hrun : natRun? (d :: ds') = some (natOfDigits (d :: ds')) := by
    unfold natRun?
    rw [if_pos ⟨by simp, by rw [List.all_eq_true]; exact hall⟩]
  show pyInt ⟨d :: ds'⟩ = _
  unfold pyInt
  simp only [String.data]
  rw [hstrip]
  simp only [List.head?_cons, Option.some.injEq]
  rw [if_neg hd1, if_neg hd2, hrun, Option.map_some']

/-- Evaluation helper: `pyInt` on a minus sign followed by digits. -/
theorem pyInt_neg_digits {ds : List Char} (hne : ds ≠ [])
    (hall : ∀ c ∈ ds, c.isDigit = true) :
    pyInt ⟨'-' :: ds⟩ = some (-Int.ofNat (natOfDigits ds)) := by
  have hns : ∀ c ∈ ('-' :: ds), isPySpace c = false := by
    intro c hc
    rcases List.mem_cons.mp hc with h | h
    · subst h; decide
    · exact not_pySpace_of_isDigit (hall c h)
  have hstrip : pyStripL ('-' :: ds) = '-' :: ds := pyStripL_self_of_no_space hns
  have hrun : natRun? ds = some (natOfDigits ds) := by
    unfold natRun?
    rw [if_pos ⟨hne, by rw [List.all_eq_true]; exact hall⟩]
  unfold pyInt
  simp only [String.data]
  rw [hstrip]
  simp [hrun]

/-- Evaluation helper: `pyFloatCore` on a plain digit run. -/
theorem pyFloatCore_digits {ds : List Char} (hne : ds ≠ [])
    (hall : ∀ c ∈ ds, c.isDigit = true) :
    pyFloatCore ds = some ((natOfDigits ds : Nat) : ℚ) := by
  have htake : ds.takeWhile Char.isDigit = ds := takeWhile_self_of_all_true hall
  have hdrop : ds.dropWhile Char.isDigit = [] := dropWhile_nil_of_all_true hall
  unfold pyFloatCore
  rw [htake, hdrop]
  simp only [List.head?_nil]
  rw [if_neg (by decide : ¬(none : Option Char) = some '.')]
  rw [if_neg (by simpa using hne : ¬ds.isEmpty = true)]
  have hexp : pyExp? [] = some 0 := rfl
  rw [hexp, Option.map_some']
  have hm : mantissa ds [] * (10 : ℚ) ^ (0 : ℤ) = ((natOfDigits ds : Nat) : ℚ) := by
    unfold mantissa
    norm_num [natOfDigits]
  rw [hm]

/-- Evaluation helper: `pyFloat` on a plain digit string. -/
theorem pyFloat_digits {ds : List Char} (hne : ds ≠ [])
    (hall : ∀ c ∈ ds, c.isDigit = true) :
    pyFloat ⟨ds⟩ = some ((natOfDigits ds : Nat) : ℚ) := by
  have hns : ∀ c ∈ ds, isPySpace c = false := fun c hc => not_pySpace_of_isDigit (hall c hc)
  have hstrip : pyStripL ds = ds := pyStripL_self_of_no_space hns
  obtain ⟨d, ds', rfl⟩ := List.exists_cons_of_ne_nil hne
  have hd := hall d (by simp)
  have hd1 : d ≠ '+' := ne_char_of_isDigit hd '+' (by left; decide)
  have hd2 : d ≠ '-' := ne_char_of_isDigit hd '-' (by left; decide)
  show pyFloat ⟨d :: ds'⟩ = _
  unfold pyFloat
  simp only [String.data]
  rw [hstrip]
  simp only [List.head?_cons, Option.some.injEq]
  rw [if_neg hd1, if_neg hd2]
  exact pyFloatCore_digits hne hall

/-- Evaluation helper: `pyFloat` on a minus sign followed by digits. -/
theorem pyFloat_neg_digits {ds : List Char} (hne : ds ≠ [])
    (hall : ∀ c ∈ ds, c.isDigit = true) :
    pyFloat ⟨'-' :: ds⟩ = some (-((natOfDigits ds : Nat) : ℚ)) := by
  have hns : ∀ c ∈ ('-' :: ds), isPySpace c = false := by
    intro c hc
    rcases List.mem_cons.mp hc with h | h
    · subst h; decide
    · exact not_pySpace_of_isDigit (hall c h)
  have hstrip : pyStripL ('-' :: ds) = '-' :: ds := pyStripL_self_of_no_space hns
  unfold pyFloat
  simp only [String.data]
  rw [hstrip]
  simp only [List.head?_cons, Option.some.injEq, List.tail_cons]
  rw [if_pos trivial]
  rw [pyFloatCore_digits hne hall, Option.map_some']
  rfl

/-! ### Claim C7: no-digit fragments yield "absent", never zero -/

/-- C7: for every text fragment containing no digit, the Number Parser
(`clean_number_string` in pdf_parser_enhanced.py, and `extract_value` in
pdf_parser.py) returns "absent" (no match), never the number zero, so
callers can distinguish a missing field from a field whose value is 0. -/
theorem c7_no_digit_returns_absent (t : String) (allow_decimal : Bool)
    (h : ∀ c ∈ t.data, c.isDigit = false) :
    clean_number_string (some t) allow_decimal = none ∧
    extract_value (some t) = none := by
  have hstripmem : ∀ c ∈ pyStripL t.data, c.isDigit = false := fun c hc =>
    h c (mem_of_mem_pyStripL hc)
  constructor
  · show clean_number_string (some t) allow_decimal = none
    simp only [clean_number_string]
    by_cases hc : (pyStrip t = "" || pyStrip t = "-") = true
    · rw [if_pos hc]
    · rw [if_neg hc]
      have hmem : ∀ c ∈ (pyStrip t).data.filter (fun c => !isSep c), c.isDigit = false :=
        fun c hcm => hstripmem c (List.mem_of_mem_filter hcm)
      have hfl : pyFloat ⟨(pyStrip t).data.filter (fun c => !isSep c)⟩ = none :=
        pyFloat_none_of_no_digit hmem
      have hin : pyInt ⟨(pyStrip t).data.filter (fun c => !isSep c)⟩ = none :=
        pyInt_none_of_no_digit hmem
      by_cases hdot : ((pyStrip t).data.filter (fun c => !isSep c)).contains '.' = true
      · rw [if_pos hdot, hfl]
      · rw [if_neg hdot, hin]
  · show extract_value (some t) = none
    simp only [extract_value]
    by_cases ht : t = ""
    · rw [if_pos ht]
    · rw [if_neg ht]
      have hmem0 : ∀ c ∈ (pyStripL t.data).filter (fun c => !(c.toNat = 32 || c.toNat = 160)),
          c.isDigit = false := by
        intro c hcm
        exact hstripmem c (List.mem_of_mem_filter hcm)
      set c0 := (pyStripL t.data).filter (fun c => !(c.toNat = 32 || c.toNat = 160)) with hc0
      have hmemT : ∀ c ∈ c0.tail.filter (fun c => c.isDigit || c = '.'), c.isDigit = false :=
        fun c hcm => hmem0 c (List.mem_of_mem_tail (List.mem_of_mem_filter hcm))
      have hmemN : ∀ c ∈ c0.filter (fun c => c.isDigit || c = '.'), c.isDigit = false :=
        fun c hcm => hmem0 c (List.mem_of_mem_filter hcm)
      have hflT : pyFloat ⟨c0.tail.filter (fun c => c.isDigit || c = '.')⟩ = none :=
        pyFloat_none_of_no_digit hmemT
      have hflN : pyFloat ⟨c0.filter (fun c => c.isDigit || c = '.')⟩ = none :=
        pyFloat_none_of_no_digit hmemN
      by_cases hneg : (c0.head? = some '-' : Bool) = true
      · rw [if_pos hneg]
        by_cases hz : c0.tail.filter (fun c => c.isDigit || c = '.') = []
        · rw [if_pos hz]
        · rw [if_neg hz, hflT]
      · rw [if_neg hneg]
        by_cases hz : c0.filter (fun c => c.isDigit || c = '.') = []
        · rw [if_pos hz]
        · rw [if_neg hz, hflN]

/-- Witness for C7 at the concrete fragment "n/a". -/
theorem c7_no_digit_returns_absent_witness :
    clean_number_string (some "n/a") false = none ∧ extract_value (some "n/a") = none :=
  c7_no_digit_returns_absent "n/a" false (by decide)


/-! ### Claim C6: the shape the Number Parser actually accepts -/

theorem filter_not_sep_of_digit_sep {body : List Char}
    (hall : ∀ c ∈ body, c.isDigit = true ∨ isSep c = true) :
    body.filter (fun c => !isSep c) = body.filter Char.isDigit := by
  apply List.filter_congr
  intro c hc
  rcases hall c hc with hdig | hsep
  · rw [hdig, not_sep_of_isDigit hdig]
    rfl
  · rw [hsep, isDigit_false_of_isSep hsep]
    rfl

/-- C6 (counterexample): the fragment "12 34" does not have the claimed shape
(1–3 digits then groups of separator + exactly 3 digits), yet both Number
Parser entry points accept it and return 1234 rather than "no match". -/
theorem c6_counterexample :
    clean_number_string (some "12 34") false = some 1234 ∧
    extract_value (some "12 34") = some 1234 := by
  constructor
  · show clean_number_string (some "12 34") false = some 1234
    simp only [clean_number_string]
    have h1 : pyStrip "12 34" = "12 34" := by decide
    rw [h1]
    rw [if_neg (by decide : ¬(("12 34" : String) = "" || ("12 34" : String) = "-") = true)]
    have h2 : ("12 34" : String).data.filter (fun c => !isSep c) = "1234".data := by decide
    rw [h2]
    rw [if_neg (by decide : ¬("1234".data.contains '.') = true)]
    have h4 : pyInt ⟨"1234".data⟩ = some (1234 : Int) := by decide
    rw [h4]
    norm_num
  · show extract_value (some "12 34") = some 1234
    simp only [extract_value]
    rw [if_neg (by decide : ¬("12 34" : String) = "")]
    have hA : (pyStripL ("12 34" : String).data).filter
        (fun c => !(c.toNat = 32 || c.toNat = 160)) = "1234".data := by decide
    rw [hA]
    rw [if_neg (by decide : ¬(("1234".data.head? = some '-' : Bool) = true))]
    have hB : "1234".data.filter (fun c => c.isDigit || c = '.') = "1234".data := by decide
    rw [hB]
    rw [if_neg (by decide : ¬("1234".data = ([] : List Char)))]
    have hC : pyFloat ⟨"1234".data⟩ = some ((natOfDigits "1234".data : Nat) : ℚ) :=
      pyFloat_digits (by decide) (by decide)
    rw [hC]
    have hD : natOfDigits "1234".data = 1234 := by decide
    rw [hD]
    norm_num
    decide


/-- Evaluation: on an optional minus sign followed by any mixture of digits
and separator characters, `clean_number_string` strips the separators and
parses the digit run as a signed integer. -/
theorem clean_number_string_digit_sep_mix (neg : Bool) (body : List Char)
    (hall : ∀ c ∈ body, c.isDigit = true ∨ isSep c = true)
    (hd : body.filter Char.isDigit ≠ []) :
    clean_number_string (some ⟨if neg then '-' :: body else body⟩) false
      = some (((if neg then -Int.ofNat (natOfDigits (body.filter Char.isDigit))
               else Int.ofNat (natOfDigits (body.filter Char.isDigit))) : Int) : ℚ) := by
  have hDd : ∀ c ∈ body.filter Char.isDigit, c.isDigit = true :=
    fun c hc => (List.mem_filter.mp hc).2
  obtain ⟨d0, D', hD'⟩ := List.exists_cons_of_ne_nil hd
  have hd0 : d0.isDigit = true := hDd d0 (by rw [hD']; simp)
  have hd0ne : d0 ≠ '-' := ne_char_of_isDigit hd0 '-' (by left; decide)
  have hbodyfilter := filter_not_sep_of_digit_sep hall
  cases neg with
  | false =>
    simp only [if_false, Bool.false_eq_true]
    have hq : ∀ c ∈ body, isPySpace c = true → (!isSep c) = false := by
      intro c hcb hsp
      rcases hall c hcb with hdig | hsep
      · rw [not_pySpace_of_isDigit hdig] at hsp
        exact absurd hsp (by simp)
      · rw [hsep]
        rfl
    have hsf : (pyStrip ⟨body⟩).data.filter (fun c => !isSep c) = body.filter Char.isDigit := by
      show (pyStripL body).filter (fun c => !isSep c) = _
      rw [filter_pyStripL_comm hq, hbodyfilter]
    have hs1 : ¬(pyStrip ⟨body⟩ = "") := by
      intro he
      rw [he] at hsf
      rw [hD'] at hsf
      exact absurd hsf.symm (by simp)
    have hs2 : ¬(pyStrip ⟨body⟩ = "-") := by
      intro he
      rw [he] at hsf
      have : ('-' : Char) ∈ body.filter Char.isDigit := by
        rw [← hsf]
        decide
      exact absurd (hDd '-' this) (by decide)
    simp only [clean_number_string]
    rw [if_neg (by simp [hs1, hs2])]
    rw [hsf]
    have hdot : (body.filter Char.isDigit).contains '.' = false := by
      have : ('.' : Char) ∉ body.filter Char.isDigit := by
        intro hmem
        exact absurd (hDd '.' hmem) (by decide)
      simp [this]
    rw [if_neg (by simp [hdot])]
    have hpi : pyInt ⟨body.filter Char.isDigit⟩
        = some (Int.ofNat (natOfDigits (body.filter Char.isDigit))) :=
      pyInt_digits hd hDd
    rw [hpi]
  | true =>
    simp only [if_true]
    have hq : ∀ c ∈ ('-' :: body), isPySpace c = true → (!isSep c) = false := by
      intro c hcb hsp
      rcases List.mem_cons.mp hcb with rfl | hcb
      · exact absurd hsp (by decide)
      · rcases hall c hcb with hdig | hsep
        · rw [not_pySpace_of_isDigit hdig] at hsp
          exact absurd hsp (by simp)
        · rw [hsep]
          rfl
    have hsf : (pyStrip ⟨'-' :: body⟩).data.filter (fun c => !isSep c)
        = '-' :: body.filter Char.isDigit := by
      show (pyStripL ('-' :: body)).filter (fun c => !isSep c) = _
      rw [filter_pyStripL_comm hq]
      rw [List.filter_cons_of_pos (by decide), hbodyfilter]
    have hs1 : ¬(pyStrip ⟨'-' :: body⟩ = "") := by
      intro he
      rw [he] at hsf
      exact absurd hsf.symm (by simp)
    have hs2 : ¬(pyStrip ⟨'-' :: body⟩ = "-") := by
      intro he
      rw [he] at hsf
      have h1 : ('-' :: body.filter Char.isDigit).length = 1 := by
        rw [← hsf]
        decide
      rw [List.length_cons, hD'] at h1
      simp at h1
    simp only [clean_number_string]
    rw [if_neg (by simp [hs1, hs2])]
    rw [hsf]
    have hdot : ('-' :: body.filter Char.isDigit).contains '.' = false := by
      have : ('.' : Char) ∉ '-' :: body.filter Char.isDigit := by
        intro hmem
        rcases List.mem_cons.mp hmem with he | hmem
        · exact absurd he (by decide)
        · exact absurd (hDd '.' hmem) (by decide)
      simp [this]
    rw [if_neg (by simp [hdot])]
    have hpi : pyInt ⟨'-' :: body.filter Char.isDigit⟩
        = some (-Int.ofNat (natOfDigits (body.filter Char.isDigit))) :=
      pyInt_neg_digits hd hDd
    rw [hpi]

/-- C6 (amended): what the Number Parser actually enforces.  For every
fragment made of an optional leading minus sign followed by any nonempty
mixture of digits and separator characters (space, comma, no-break space),
`clean_number_string` strips the separators anywhere they occur and parses
the remaining digit run as a signed integer; no 1–3-digit / 3-digit-group
thousands shape is checked. -/
theorem c6_amended_separators_stripped_unconditionally (neg : Bool) (body : List Char)
    (hall : ∀ c ∈ body, c.isDigit = true ∨ isSep c = true)
    (hd : body.filter Char.isDigit ≠ []) :
    clean_number_string (some ⟨if neg then '-' :: body else body⟩) false
      = some (((if neg then -Int.ofNat (natOfDigits (body.filter Char.isDigit))
               else Int.ofNat (natOfDigits (body.filter Char.isDigit))) : Int) : ℚ) :=
  clean_number_string_digit_sep_mix neg body hall hd

/-- Witness for the amended C6 at the fragment "-12 34" (a shape the original
claim would reject): the parser returns -1234. -/
theorem c6_amended_separators_stripped_unconditionally_witness :
    clean_number_string (some "-12 34") false = some ((-1234 : Int) : ℚ) := by
  have h := c6_amended_separators_stripped_unconditionally true "12 34".data
    (by decide) (by decide)

  have h2 : natOfDigits ("12 34".data.filter Char.isDigit) = 1234 := by decide
  rw [h2] at h
  simpa using h


/-! ### Regex search primitives for the Field Resolver

`parse_balance_sheet_from_table` (pdf_parser_enhanced.py, lines 357–460)
matches each row label with `re.search(pattern, field_name, re.IGNORECASE)`.
Every pattern in its table falls into a handful of shapes, each given a
direct decidable definition here.  `re.search` lets a match start at any
position; `.` does not match a newline; the label is already lowercased by
the caller and the patterns are lowercase, so IGNORECASE has no effect. -/

/-- If `lit` is a prefix of `s`, return the remainder. -/
def dropLit : List Char → List Char → Option (List Char)
  | [], s => some s
  | _ :: _, [] => none
  | c :: p, d :: s => if c = d then dropLit p s else none

/-- Match a literal at the current position, then continue. -/
def atLit (lit : List Char) (k : List Char → Bool) (s : List Char) : Bool :=
  match dropLit lit s with
  | some r => k r
  | none => false

/-- Regex `.?`: continue, optionally skipping one non-newline character. -/
def atDotOpt (k : List Char → Bool) (s : List Char) : Bool :=
  k s || (match s with
          | c :: r => !(c = Char.ofNat 10) && k r
          | [] => false)

/-- Regex `.*`: skip any number of non-newline characters, then continue. -/
def gapTo (k : List Char → Bool) (s : List Char) : Bool :=
  (List.range (s.length + 1)).any
    (fun i => ((s.take i).all (fun c => !(c = Char.ofNat 10))) && k (s.drop i))

/-- `re.search` start: the match may begin at any position. -/
def searchFrom (k : List Char → Bool) (s : List Char) : Bool :=
  (List.range (s.length + 1)).any (fun i => k (s.drop i))

/-- Trailing context is unconstrained. -/
def endAny (_ : List Char) : Bool := true

/-- `re.search` of a plain literal (substring test). -/
def searchLit (lit : List Char) (s : List Char) : Bool :=
  searchFrom (atLit lit endAny) s

/-- A fully anchored pattern of the form `^\s*LIT\s*$`. -/
def anchoredWsLit (lit : List Char) (s : List Char) : Bool :=
  match dropLit lit (s.dropWhile isPySpace) with
  | some r => r.all isPySpace
  | none => false

/-- The pattern `^\s*total\s+assets\s*$`. -/
def anchoredTotalSpAssets (s : List Char) : Bool :=
  match dropLit "total".data (s.dropWhile isPySpace) with
  | some r =>
    (match r.head? with
     | some c => isPySpace c &&
        (match dropLit "assets".data (r.dropWhile isPySpace) with
         | some r2 => r2.all isPySpace
         | none => false)
     | none => false)
  | none => false

/-- The pattern `(?<!un)listed`: an occurrence of `listed` whose two
preceding characters are not `un`. -/
def searchListedNotUn (s : List Char) : Bool :=
  (List.range (s.length + 1)).any
    (fun i => "listed".data.isPrefixOf (s.drop i) && !("un".data.isSuffixOf (s.take i)))

/-- A pattern of the form `LIT(?!\w)`: the occurrence is not followed by a
word character. -/
def searchLitNotWord (lit : List Char) (s : List Char) : Bool :=
  searchFrom (atLit lit (fun r =>
    match r.head? with
    | some c => !isWordChar c
    | none => true)) s

/-! ### The field pattern table (pdf_parser_enhanced.py, lines 375–393)

One Bool-valued matcher per catalogue field; the disjuncts appear in the
order of the Python pattern lists (the inner loop breaks at the first
matching pattern, so for the match test the disjunction is equivalent). -/

def matchesField (key : String) (label : String) : Bool :=
  let l := label.data
  if key = "EQUITIESANDPARTICIPATIONSUNLISTED" then
    anchoredWsLit "unlisted".data l || searchLit "non-listed".data l ||
    searchFrom (atLit "equities".data (gapTo (atLit "unlisted".data endAny))) l
  else if key = "EQUITIESANDPARTICIPATIONSLISTED" then
    anchoredWsLit "listed".data l || searchListedNotUn l ||
    searchFrom (atLit "equities".data (gapTo (atLit "listed".data endAny))) l
  else if key = "BONDSANDOTHERFIXEDINCOMESECURITIES" then
    searchFrom (atLit "bonds".data
      (gapTo (atLit "fixed".data (atDotOpt (atLit "income".data endAny))))) l ||
    searchFrom (atLit "fixed".data
      (atDotOpt (atLit "income".data (gapTo (atLit "securities".data endAny))))) l
  else if key = "DERIVATIVEINSTRUMENTS" then
    anchoredWsLit "derivative instruments".data l
  else if key = "CASHANDBANKBALANCES" then
    searchFrom (atLit "cash".data (gapTo (atLit "bank".data endAny))) l ||
    searchLit "cash and bank balances".data l
  else if key = "OTHERASSETS" then
    anchoredWsLit "other assets".data l || searchLitNotWord "other assets".data l
  else if key = "PREPAIDEXPENSESANDACCRUEDINCOME" then
    searchFrom (atLit "prepaid".data
      (gapTo (atLit "accrued".data (gapTo (atLit "income".data endAny))))) l
  else if key = "TOTALASSETS" then
    anchoredTotalSpAssets l || searchLitNotWord "total assets".data l
  else if key = "DERIVATIVEINSTRUMENTSLIABILITIES" then
    anchoredWsLit "derivative instruments".data l
  else if key = "OTHERLIABILITIES" then
    anchoredWsLit "other liabilities".data l || searchLitNotWord "other liabilities".data l
  else if key = "DEFERREDINCOMEANDACCRUEDEXPENSES" then
    searchFrom (atLit "deferred".data
      (gapTo (atLit "accrued".data (gapTo (atLit "expenses".data endAny))))) l ||
    searchFrom (atLit "deferred income".data (gapTo (atLit "accrued".data endAny))) l
  else if key = "TOTALLIABILITIES" then
    anchoredWsLit "total liabilities".data l || searchLitNotWord "total liabilities".data l
  else if key = "FUNDCAPITALCARRIEDFORWARD" then
    searchLit "fund capital carried forward".data l ||
    searchFrom (atLit "carried".data (gapTo (atLit "forward".data endAny))) l
  else if key = "NETPAYMENTSTOTHENATIONALPENSIONSYSTEM" then
    searchFrom (atLit "net".data (gapTo (atLit "national pension".data endAny))) l ||
    searchFrom (atLit "net payments".data (gapTo (atLit "pension".data endAny))) l
  else if key = "NETRESULTFORTHEPERIOD" then
    searchFrom (atLit "net result".data (gapTo (atLit "period".data endAny))) l
  else if key = "TOTALFUNDCAPITAL" then
    anchoredWsLit "total fund capital".data l || searchLitNotWord "total fund capital".data l
  else if key = "TOTALFUNDCAPITALANDLIABILITIES" then
    searchLit "total fund capital and liabilities".data l ||
    searchFrom (atLit "total".data
      (gapTo (atLit "capital".data (gapTo (atLit "liabilities".data endAny))))) l
  else false

/-- The keys of `field_patterns` in Python dict (insertion) order. -/
def fieldOrder : List String :=
  ["EQUITIESANDPARTICIPATIONSUNLISTED", "EQUITIESANDPARTICIPATIONSLISTED",
   "BONDSANDOTHERFIXEDINCOMESECURITIES", "DERIVATIVEINSTRUMENTS",
   "CASHANDBANKBALANCES", "OTHERASSETS", "PREPAIDEXPENSESANDACCRUEDINCOME",
   "TOTALASSETS", "DERIVATIVEINSTRUMENTSLIABILITIES", "OTHERLIABILITIES",
   "DEFERREDINCOMEANDACCRUEDEXPENSES", "TOTALLIABILITIES",
   "FUNDCAPITALCARRIEDFORWARD", "NETPAYMENTSTOTHENATIONALPENSIONSYSTEM",
   "NETRESULTFORTHEPERIOD", "TOTALFUNDCAPITAL", "TOTALFUNDCAPITALANDLIABILITIES"]


/-! ### The Field Resolver (`parse_balance_sheet_from_table`)

A `Grid` models the pandas DataFrame handed to the resolver: `ncols` is
`df.shape[1]` and each row is the list of its cells, a cell being `none`
for `NaN`.  `field_name = str(row.iloc[0]).strip().lower()` (empty for a
`NaN` cell) and the value cell is `row.iloc[1]`. -/

structure Grid where
  ncols : Nat
  rows : List (List (Option String))

def cellAt (row : List (Option String)) (i : Nat) : Option String :=
  (row.get? i).join

def labelOf (cell : Option String) : String :=
  match cell with
  | none => ""
  | some s => pyLower (pyStrip s)

/-- The inner `for field_key, patterns in field_patterns.items()` loop for a
single data row: skip a populated field, skip a non-matching field, apply
the derivative-instruments section check, and on a successful value parse
insert the field and stop (the Python `break`); an unparseable value cell
moves on to the next field. -/
def tryFields (ncols : Nat) (inAssets : Bool) (label : String) (vcell : Option String) :
    List String → List (String × ℚ) → List (String × ℚ)
  | [], data => data
  | key :: ks, data =>
    if (data.lookup key).isSome then tryFields ncols inAssets label vcell ks data
    else if matchesField key label = false then tryFields ncols inAssets label vcell ks data
    else if key = "DERIVATIVEINSTRUMENTS" ∧ inAssets = false then
      tryFields ncols inAssets label vcell ks data
    else if key = "DERIVATIVEINSTRUMENTSLIABILITIES" ∧ inAssets = true then
      tryFields ncols inAssets label vcell ks data
    else if 2 ≤ ncols then
      match clean_number_string vcell false with
      | some v => (key, v) :: data
      | none => tryFields ncols inAssets label vcell ks data
    else tryFields ncols inAssets label vcell ks data

/-- Resolver state: the extraction mapping built so far and the
`in_assets_section` flag (initially true). -/
structure RState where
  data : List (String × ℚ)
  inAssets : Bool

/-- One iteration of the row loop: blank labels are skipped, the four
section-header tokens only switch the section flag, anything else is a data
row run through the pattern table. -/
def processRow (ncols : Nat) (st : RState) (row : List (Option String)) : RState :=
  let label := labelOf (cellAt row 0)
  if label = "" then st
  else if label = "assets" then { st with inAssets := true }
  else if label = "liabilities" ∨ label = "fund capital and liabilities" then
    { st with inAssets := false }
  else if label = "fund capital" then { st with inAssets := false }
  else { st with data := tryFields ncols st.inAssets label (cellAt row 1) fieldOrder st.data }

def processRows (ncols : Nat) (st : RState) (rows : List (List (Option String))) : RState :=
  rows.foldl (processRow ncols) st

/-- `parse_balance_sheet_from_table` (pdf_parser_enhanced.py, lines 357–460):
fold the row loop over the grid from the empty mapping, starting in the
assets section. -/
def parse_balance_sheet_from_table (g : Grid) : List (String × ℚ) :=
  if g.rows.isEmpty then []
  else (processRows g.ncols ⟨[], true⟩ g.rows).data

/-! ### Claim C2: a populated field is never overwritten -/

theorem tryFields_lookup_mono {key : String} {v : ℚ} {ncols : Nat} {inAssets : Bool}
    {label : String} {vcell : Option String} :
    ∀ (ks : List String) (data : List (String × ℚ)),
      data.lookup key = some v →
      (tryFields ncols inAssets label vcell ks data).lookup key = some v := by
  intro ks
  induction ks with
  | nil => intro data h; exact h
  | cons k ks' ih =>
    intro data h
    unfold tryFields
    by_cases h1 : (data.lookup k).isSome = true
    · rw [if_pos h1]; exact ih data h
    · rw [if_neg h1]
      by_cases h2 : matchesField k label = false
      · rw [if_pos h2]; exact ih data h
      · rw [if_neg h2]
        by_cases h3 : k = "DERIVATIVEINSTRUMENTS" ∧ inAssets = false
        · rw [if_pos h3]; exact ih data h
        · rw [if_neg h3]
          by_cases h4 : k = "DERIVATIVEINSTRUMENTSLIABILITIES" ∧ inAssets = true
          · rw [if_pos h4]; exact ih data h
          · rw [if_neg h4]
            by_cases h5 : 2 ≤ ncols
            · rw [if_pos h5]
              cases hc : clean_number_string vcell false with
              | none => exact ih data h
              | some w =>
                have hkne : key ≠ k := by
                  intro he
                  rw [← he, h] at h1
                  exact h1 rfl
                rw [List.lookup_cons]
                have hb : (key == k) = false := beq_eq_false_iff_ne.mpr hkne
                rw [hb]
                exact h
            · rw [if_neg h5]; exact ih data h

theorem processRow_lookup_mono {key : String} {v : ℚ} {ncols : Nat} {st : RState}
    {row : List (Option String)} (h : st.data.lookup key = some v) :
    (processRow ncols st row).data.lookup key = some v := by
  unfold processRow
  by_cases h1 : labelOf (cellAt row 0) = ""
  · rw [if_pos h1]; exact h
  · rw [if_neg h1]
    by_cases h2 : labelOf (cellAt row 0) = "assets"
    · rw [if_pos h2]; exact h
    · rw [if_neg h2]
      by_cases h3 : labelOf (cellAt row 0) = "liabilities" ∨
          labelOf (cellAt row 0) = "fund capital and liabilities"
      · rw [if_pos h3]; exact h
      · rw [if_neg h3]
        by_cases h4 : labelOf (cellAt row 0) = "fund capital"
        · rw [if_pos h4]; exact h
        · rw [if_neg h4]
          exact tryFields_lookup_mono fieldOrder st.data h

/-- C2: within one extraction pass the Field Resolver populates each
catalogue field at most once: once a field key is present in the mapping,
no later row changes its value (first successful match per field wins). -/
theorem c2_field_once_populated_never_overwritten (ncols : Nat)
    (rows : List (List (Option String))) (st : RState) (key : String) (v : ℚ)
    (h : st.data.lookup key = some v) :
    (processRows ncols st rows).data.lookup key = some v := by
  induction rows generalizing st with
  | nil => exact h
  | cons r rs ih =>
    show (processRows ncols (processRow ncols st r) rs).data.lookup key = some v
    exact ih (processRow ncols st r) (processRow_lookup_mono h)

/-- Witness for C2: a state that already maps TOTALASSETS to 5 keeps that
value after a further "total assets" row carrying 7 is processed. -/
theorem c2_field_once_populated_never_overwritten_witness :
    (processRows 2 ⟨[("TOTALASSETS", (5 : ℚ))], true⟩
        [[some "Total assets", some "7"]]).data.lookup "TOTALASSETS" = some 5 :=
  c2_field_once_populated_never_overwritten 2 [[some "Total assets", some "7"]]
    ⟨[("TOTALASSETS", (5 : ℚ))], true⟩ "TOTALASSETS" 5 rfl


/-! ### Claim C1: the derivative-instruments disambiguation

First: a label produced by `str(cell).strip().lower()` has no leading or
trailing whitespace, so the fully anchored pattern `^\s*LIT\s*$` matches
it exactly when the label equals the literal. -/

def noSpaceEnds (l : List Char) : Prop :=
  l.dropWhile isPySpace = l ∧ l.reverse.dropWhile isPySpace = l.reverse

theorem dropWhile_fix_head_false {p : Char → Bool} {x : Char} {t : List Char}
    (h : (x :: t).dropWhile p = x :: t) : p x = false := by
  by_cases hp : p x
  · rw [List.dropWhile_cons, if_pos hp] at h
    have hle : (t.dropWhile p).length ≤ t.length := (List.dropWhile_sublist p).length_le
    have h2 := congrArg List.length h
    simp at h2
    omega
  · simpa using hp

theorem prefix_fix_dropWhile {p : Char → Bool} {l n : List Char}
    (hl : l.dropWhile p = l) (hpre : n <+: l) : n.dropWhile p = n := by
  cases n with
  | nil => rfl
  | cons c n' =>
    obtain ⟨t, ht⟩ := hpre
    rw [← ht] at hl
    have hc : p c = false := dropWhile_fix_head_false hl
    rw [List.dropWhile_cons, if_neg (by simp [hc])]

theorem dropWhileEnd_isPrefix (p : Char → Bool) (m : List Char) :
    dropWhileEnd p m <+: m := by
  have hsuf : (dropWhileEnd p m).reverse <:+ m.reverse := by
    unfold dropWhileEnd
    rw [List.reverse_reverse]
    exact List.dropWhile_suffix p
  rw [List.reverse_suffix] at hsuf
  exact hsuf

theorem pyStripL_noSpaceEnds (l : List Char) : noSpaceEnds (pyStripL l) := by
  constructor
  · have hfix : (l.dropWhile isPySpace).dropWhile isPySpace = l.dropWhile isPySpace :=
      dropWhile_idem isPySpace l
    exact prefix_fix_dropWhile hfix (dropWhileEnd_isPrefix isPySpace (l.dropWhile isPySpace))
  · show (pyStripL l).reverse.dropWhile isPySpace = (pyStripL l).reverse
    unfold pyStripL dropWhileEnd
    rw [List.reverse_reverse]
    exact dropWhile_idem isPySpace (l.dropWhile isPySpace).reverse

theorem lowerChar_pySpace (c : Char) : isPySpace (lowerChar c) = isPySpace c := by
  unfold lowerChar
  by_cases h : (65 ≤ c.toNat && c.toNat ≤ 90) = true
  · rw [if_pos h]
    simp only [Bool.and_eq_true, decide_eq_true_eq] at h
    have hvalid : c.toNat + 32 < 55296 := by omega
    have htn : (Char.ofNat (c.toNat + 32)).toNat = c.toNat + 32 := by
      unfold Char.ofNat
      rw [dif_pos (Or.inl hvalid)]
      rfl
    have h1 : isPySpace (Char.ofNat (c.toNat + 32)) = false := by
      simp only [isPySpace, Bool.or_eq_false_iff, decide_eq_false_iff_not, htn]
      omega
    have h2 : isPySpace c = false := by
      simp only [isPySpace, Bool.or_eq_false_iff, decide_eq_false_iff_not]
      omega
    rw [h1, h2]
  · rw [if_neg h]

theorem noSpaceEnds_map_lower {l : List Char} (h : noSpaceEnds l) :
    noSpaceEnds (l.map lowerChar) := by
  have hfun : isPySpace ∘ lowerChar = isPySpace := by
    funext c
    exact lowerChar_pySpace c
  constructor
  · rw [List.dropWhile_map, hfun, h.1]
  · rw [← List.map_reverse, List.dropWhile_map, hfun, h.2]

theorem labelOf_noSpaceEnds (cell : Option String) : noSpaceEnds (labelOf cell).data := by
  cases cell with
  | none => exact ⟨rfl, rfl⟩
  | some s =>
    show noSpaceEnds ((pyStripL s.data).map lowerChar)
    exact noSpaceEnds_map_lower (pyStripL_noSpaceEnds s.data)

theorem dropLit_some {lit : List Char} :
    ∀ {s r : List Char}, dropLit lit s = some r → s = lit ++ r := by
  induction lit with
  | nil =>
    intro s r h
    simp only [dropLit, Option.some.injEq] at h
    rw [h]
    rfl
  | cons c p ih =>
    intro s r h
    cases s with
    | nil => exact absurd h (by simp [dropLit])
    | cons d s' =>
      unfold dropLit at h
      by_cases hcd : c = d
      · rw [if_pos hcd] at h
        rw [List.cons_append, ← ih h, hcd]
      · rw [if_neg hcd] at h
        exact absurd h (by simp)

/-- On a stripped label, the anchored pattern `^\s*LIT\s*$` forces label
equality (the literals used have a non-whitespace final character). -/
theorem anchoredWsLit_label_eq {lit l : List Char}
    (hsse : noSpaceEnds l)
    (h : anchoredWsLit lit l = true) : l = lit := by
  unfold anchoredWsLit at h
  rw [hsse.1] at h
  cases hdl : dropLit lit l with
  | none => rw [hdl] at h; exact absurd h (by simp)
  | some r =>
    rw [hdl] at h
    have hsplit : l = lit ++ r := dropLit_some hdl
    cases hr : r with
    | nil =>
      rw [hsplit, hr, List.append_nil]
    | cons c rs =>
      exfalso
      rw [hr] at h hsplit
      obtain ⟨lastc, rest, hrev⟩ :
          ∃ lastc rest, (c :: rs).reverse = lastc :: rest := by
        cases hcr : (c :: rs).reverse with
        | nil => exact absurd (congrArg List.length hcr) (by simp)
        | cons a b => exact ⟨a, b, rfl⟩
      have hlastmem : lastc ∈ c :: rs := by
        rw [← List.mem_reverse, hrev]
        simp
      have hlastsp : isPySpace lastc = true := by
        rw [List.all_eq_true] at h
        exact h lastc hlastmem
      have hlrev : l.reverse = lastc :: (rest ++ lit.reverse) := by
        rw [hsplit, List.reverse_append, hrev]
        rfl
      have hfix := hsse.2
      rw [hlrev] at hfix
      have := dropWhile_fix_head_false hfix
      rw [hlastsp] at this
      exact absurd this (by simp)


theorem stringDataEq {s t : String} (h : s.data = t.data) : s = t := by
  cases s
  cases t
  exact congrArg String.mk h

theorem matchesField_DI_eq (label : String) :
    matchesField "DERIVATIVEINSTRUMENTS" label
      = anchoredWsLit "derivative instruments".data label.data := by
  simp [matchesField]

theorem matchesField_DIL_eq (label : String) :
    matchesField "DERIVATIVEINSTRUMENTSLIABILITIES" label
      = anchoredWsLit "derivative instruments".data label.data := by
  simp [matchesField]

/-- The two derivative patterns are fully anchored, so they can only match a
row whose (stripped, lowercased) label is exactly "derivative instruments". -/
theorem label_eq_of_matches_DI {cell : Option String}
    (h : anchoredWsLit "derivative instruments".data (labelOf cell).data = true) :
    labelOf cell = "derivative instruments" :=
  stringDataEq (anchoredWsLit_label_eq (labelOf_noSpaceEnds cell) h)

theorem tryFields_cons_of_populated {ncols : Nat} {inAssets : Bool} {label : String}
    {vcell : Option String} {k : String} {ks : List String} {data : List (String × ℚ)}
    (h : (data.lookup k).isSome = true) :
    tryFields ncols inAssets label vcell (k :: ks) data
      = tryFields ncols inAssets label vcell ks data := by
  conv_lhs => unfold tryFields
  rw [if_pos h]

theorem tryFields_cons_of_no_match {ncols : Nat} {inAssets : Bool} {label : String}
    {vcell : Option String} {k : String} {ks : List String} {data : List (String × ℚ)}
    (h : matchesField k label = false) :
    tryFields ncols inAssets label vcell (k :: ks) data
      = tryFields ncols inAssets label vcell ks data := by
  conv_lhs => unfold tryFields
  by_cases h1 : (data.lookup k).isSome = true
  · rw [if_pos h1]
  · rw [if_neg h1, if_pos h]

theorem tryFields_lookup_of_no_match {key : String} {ncols : Nat} {inAssets : Bool}
    {label : String} {vcell : Option String}
    (hm : matchesField key label = false) :
    ∀ (ks : List String) (data : List (String × ℚ)),
      (tryFields ncols inAssets label vcell ks data).lookup key = data.lookup key := by
  intro ks
  induction ks with
  | nil => intro data; rfl
  | cons k ks' ih =>
    intro data
    unfold tryFields
    by_cases h1 : (data.lookup k).isSome = true
    · rw [if_pos h1]; exact ih data
    · rw [if_neg h1]
      by_cases h2 : matchesField k label = false
      · rw [if_pos h2]; exact ih data
      · rw [if_neg h2]
        by_cases h3 : k = "DERIVATIVEINSTRUMENTS" ∧ inAssets = false
        · rw [if_pos h3]; exact ih data
        · rw [if_neg h3]
          by_cases h4 : k = "DERIVATIVEINSTRUMENTSLIABILITIES" ∧ inAssets = true
          · rw [if_pos h4]; exact ih data
          · rw [if_neg h4]
            by_cases h5 : 2 ≤ ncols
            · rw [if_pos h5]
              cases hc : clean_number_string vcell false with
              | none => exact ih data
              | some w =>
                have hkne : key ≠ k := by
                  intro he
                  rw [← he] at h2
                  exact h2 hm
                rw [List.lookup_cons, beq_eq_false_iff_ne.mpr hkne]
            · rw [if_neg h5]; exact ih data

theorem tryFields_DI_not_assets {ncols : Nat} {label : String} {vcell : Option String} :
    ∀ (ks : List String) (data : List (String × ℚ)),
      (tryFields ncols false label vcell ks data).lookup "DERIVATIVEINSTRUMENTS"
        = data.lookup "DERIVATIVEINSTRUMENTS" := by
  intro ks
  induction ks with
  | nil => intro data; rfl
  | cons k ks' ih =>
    intro data
    unfold tryFields
    by_cases h1 : (data.lookup k).isSome = true
    · rw [if_pos h1]; exact ih data
    · rw [if_neg h1]
      by_cases h2 : matchesField k label = false
      · rw [if_pos h2]; exact ih data
      · rw [if_neg h2]
        by_cases h3 : k = "DERIVATIVEINSTRUMENTS" ∧ (false : Bool) = false
        · rw [if_pos h3]; exact ih data
        · rw [if_neg h3]
          have hkne : "DERIVATIVEINSTRUMENTS" ≠ k := by
            intro he
            exact h3 ⟨he.symm, rfl⟩
          by_cases h4 : k = "DERIVATIVEINSTRUMENTSLIABILITIES" ∧ (false : Bool) = true
          · rw [if_pos h4]; exact ih data
          · rw [if_neg h4]
            by_cases h5 : 2 ≤ ncols
            · rw [if_pos h5]
              cases hc : clean_number_string vcell false with
              | none => exact ih data
              | some w =>
                rw [List.lookup_cons, beq_eq_false_iff_ne.mpr hkne]
            · rw [if_neg h5]; exact ih data

theorem tryFields_DIL_assets {ncols : Nat} {label : String} {vcell : Option String} :
    ∀ (ks : List String) (data : List (String × ℚ)),
      (tryFields ncols true label vcell ks data).lookup "DERIVATIVEINSTRUMENTSLIABILITIES"
        = data.lookup "DERIVATIVEINSTRUMENTSLIABILITIES" := by
  intro ks
  induction ks with
  | nil => intro data; rfl
  | cons k ks' ih =>
    intro data
    unfold tryFields
    by_cases h1 : (data.lookup k).isSome = true
    · rw [if_pos h1]; exact ih data
    · rw [if_neg h1]
      by_cases h2 : matchesField k label = false
      · rw [if_pos h2]; exact ih data
      · rw [if_neg h2]
        by_cases h3 : k = "DERIVATIVEINSTRUMENTS" ∧ (true : Bool) = false
        · rw [if_pos h3]; exact ih data
        · rw [if_neg h3]
          by_cases h4 : k = "DERIVATIVEINSTRUMENTSLIABILITIES" ∧ (true : Bool) = true
          · rw [if_pos h4]; exact ih data
          · rw [if_neg h4]
            have hkne : "DERIVATIVEINSTRUMENTSLIABILITIES" ≠ k := by
              intro he
              exact h4 ⟨he.symm, rfl⟩
            by_cases h5 : 2 ≤ ncols
            · rw [if_pos h5]
              cases hc : clean_number_string vcell false with
              | none => exact ih data
              | some w =>
                rw [List.lookup_cons, beq_eq_false_iff_ne.mpr hkne]
            · rw [if_neg h5]; exact ih data


theorem processRows_append (ncols : Nat) (st : RState)
    (xs ys : List (List (Option String))) :
    processRows ncols st (xs ++ ys) = processRows ncols (processRows ncols st xs) ys := by
  simp [processRows, List.foldl_append]

theorem processRows_cons (ncols : Nat) (st : RState) (x : List (Option String))
    (ys : List (List (Option String))) :
    processRows ncols st (x :: ys) = processRows ncols (processRow ncols st x) ys := rfl

/-- A data row (label nonempty, not a section header) only updates the
mapping through the pattern table. -/
theorem processRow_data_row {ncols : Nat} {st : RState} {row : List (Option String)}
    {lab : String} (hlab : labelOf (cellAt row 0) = lab)
    (h1 : lab ≠ "") (h2 : lab ≠ "assets") (h3 : lab ≠ "liabilities")
    (h4 : lab ≠ "fund capital and liabilities") (h5 : lab ≠ "fund capital") :
    processRow ncols st row
      = { st with data := tryFields ncols st.inAssets lab (cellAt row 1) fieldOrder st.data } := by
  unfold processRow
  rw [hlab, if_neg h1, if_neg h2, if_neg (not_or.mpr ⟨h3, h4⟩), if_neg h5]

/-- A row whose label is not exactly "derivative instruments" leaves both
derivative fields untouched. -/
theorem processRow_preserves_derivs {ncols : Nat} {st : RState} {row : List (Option String)}
    (hlab : labelOf (cellAt row 0) ≠ "derivative instruments") :
    (processRow ncols st row).data.lookup "DERIVATIVEINSTRUMENTS"
      = st.data.lookup "DERIVATIVEINSTRUMENTS" ∧
    (processRow ncols st row).data.lookup "DERIVATIVEINSTRUMENTSLIABILITIES"
      = st.data.lookup "DERIVATIVEINSTRUMENTSLIABILITIES" := by
  have hmDI : matchesField "DERIVATIVEINSTRUMENTS" (labelOf (cellAt row 0)) = false := by
    cases hm : matchesField "DERIVATIVEINSTRUMENTS" (labelOf (cellAt row 0)) with
    | false => rfl
    | true =>
      rw [matchesField_DI_eq] at hm
      exact absurd (label_eq_of_matches_DI hm) hlab
  have hmDIL : matchesField "DERIVATIVEINSTRUMENTSLIABILITIES" (labelOf (cellAt row 0)) = false := by
    cases hm : matchesField "DERIVATIVEINSTRUMENTSLIABILITIES" (labelOf (cellAt row 0)) with
    | false => rfl
    | true =>
      rw [matchesField_DIL_eq] at hm
      exact absurd (label_eq_of_matches_DI hm) hlab
  unfold processRow
  by_cases he : labelOf (cellAt row 0) = ""
  · rw [if_pos he]; exact ⟨rfl, rfl⟩
  · rw [if_neg he]
    by_cases ha : labelOf (cellAt row 0) = "assets"
    · rw [if_pos ha]; exact ⟨rfl, rfl⟩
    · rw [if_neg ha]
      by_cases hl : labelOf (cellAt row 0) = "liabilities" ∨
          labelOf (cellAt row 0) = "fund capital and liabilities"
      · rw [if_pos hl]; exact ⟨rfl, rfl⟩
      · rw [if_neg hl]
        by_cases hf : labelOf (cellAt row 0) = "fund capital"
        · rw [if_pos hf]; exact ⟨rfl, rfl⟩
        · rw [if_neg hf]
          exact ⟨tryFields_lookup_of_no_match hmDI fieldOrder st.data,
                 tryFields_lookup_of_no_match hmDIL fieldOrder st.data⟩

theorem processRows_preserve_derivs {ncols : Nat} {rows : List (List (Option String))} :
    ∀ st : RState, (∀ r ∈ rows, labelOf (cellAt r 0) ≠ "derivative instruments") →
      (processRows ncols st rows).data.lookup "DERIVATIVEINSTRUMENTS"
        = st.data.lookup "DERIVATIVEINSTRUMENTS" ∧
      (processRows ncols st rows).data.lookup "DERIVATIVEINSTRUMENTSLIABILITIES"
        = st.data.lookup "DERIVATIVEINSTRUMENTSLIABILITIES" := by
  induction rows with
  | nil => intro st h; exact ⟨rfl, rfl⟩
  | cons r rs ih =>
    intro st h
    rw [processRows_cons]
    have h1 : (processRow ncols st r).data.lookup "DERIVATIVEINSTRUMENTS"
        = st.data.lookup "DERIVATIVEINSTRUMENTS" ∧
        (processRow ncols st r).data.lookup "DERIVATIVEINSTRUMENTSLIABILITIES"
        = st.data.lookup "DERIVATIVEINSTRUMENTSLIABILITIES" :=
      processRow_preserves_derivs (h r (by simp))
    have h2 := ih (processRow ncols st r) (fun x hx => h x (by simp [hx]))
    exact ⟨h2.1.trans h1.1, h2.2.trans h1.2⟩

/-- Trace of the pattern table on a row labelled "derivative instruments"
while in the assets section with the asset-side field still empty: the
asset-side field is the one populated. -/
theorem tryFields_run_DI {ncols : Nat} {vcell : Option String} {data : List (String × ℚ)}
    {va : ℚ} (hDI : data.lookup "DERIVATIVEINSTRUMENTS" = none)
    (hn : 2 ≤ ncols) (hv : clean_number_string vcell false = some va) :
    tryFields ncols true "derivative instruments" vcell fieldOrder data
      = ("DERIVATIVEINSTRUMENTS", va) :: data := by
  show tryFields ncols true "derivative instruments" vcell
    ("EQUITIESANDPARTICIPATIONSUNLISTED" :: "EQUITIESANDPARTICIPATIONSLISTED" ::
     "BONDSANDOTHERFIXEDINCOMESECURITIES" :: "DERIVATIVEINSTRUMENTS" ::
     "CASHANDBANKBALANCES" :: "OTHERASSETS" :: "PREPAIDEXPENSESANDACCRUEDINCOME" ::
     "TOTALASSETS" :: "DERIVATIVEINSTRUMENTSLIABILITIES" :: "OTHERLIABILITIES" ::
     "DEFERREDINCOMEANDACCRUEDEXPENSES" :: "TOTALLIABILITIES" ::
     "FUNDCAPITALCARRIEDFORWARD" :: "NETPAYMENTSTOTHENATIONALPENSIONSYSTEM" ::
     "NETRESULTFORTHEPERIOD" :: "TOTALFUNDCAPITAL" ::
     "TOTALFUNDCAPITALANDLIABILITIES" :: []) data = _
  rw [tryFields_cons_of_no_match (by decide)]
  rw [tryFields_cons_of_no_match (by decide)]
  rw [tryFields_cons_of_no_match (by decide)]
  conv_lhs => unfold tryFields
  rw [if_neg (by rw [hDI]; simp)]
  rw [if_neg (by decide :
    ¬matchesField "DERIVATIVEINSTRUMENTS" "derivative instruments" = false)]
  rw [if_neg (by simp :
    ¬("DERIVATIVEINSTRUMENTS" = "DERIVATIVEINSTRUMENTS" ∧ (true : Bool) = false))]
  rw [if_neg (by decide :
    ¬("DERIVATIVEINSTRUMENTS" = "DERIVATIVEINSTRUMENTSLIABILITIES" ∧ (true : Bool) = true))]
  rw [if_pos hn, hv]

/-- Trace of the pattern table on a row labelled "derivative instruments"
after leaving the assets section, with the asset-side field already
populated: the liability-side field is the one populated. -/
theorem tryFields_run_DIL {ncols : Nat} {vcell : Option String} {data : List (String × ℚ)}
    {vl : ℚ} (hDI : (data.lookup "DERIVATIVEINSTRUMENTS").isSome = true)
    (hDIL : data.lookup "DERIVATIVEINSTRUMENTSLIABILITIES" = none)
    (hn : 2 ≤ ncols) (hv : clean_number_string vcell false = some vl) :
    tryFields ncols false "derivative instruments" vcell fieldOrder data
      = ("DERIVATIVEINSTRUMENTSLIABILITIES", vl) :: data := by
  show tryFields ncols false "derivative instruments" vcell
    ("EQUITIESANDPARTICIPATIONSUNLISTED" :: "EQUITIESANDPARTICIPATIONSLISTED" ::
     "BONDSANDOTHERFIXEDINCOMESECURITIES" :: "DERIVATIVEINSTRUMENTS" ::
     "CASHANDBANKBALANCES" :: "OTHERASSETS" :: "PREPAIDEXPENSESANDACCRUEDINCOME" ::
     "TOTALASSETS" :: "DERIVATIVEINSTRUMENTSLIABILITIES" :: "OTHERLIABILITIES" ::
     "DEFERREDINCOMEANDACCRUEDEXPENSES" :: "TOTALLIABILITIES" ::
     "FUNDCAPITALCARRIEDFORWARD" :: "NETPAYMENTSTOTHENATIONALPENSIONSYSTEM" ::
     "NETRESULTFORTHEPERIOD" :: "TOTALFUNDCAPITAL" ::
     "TOTALFUNDCAPITALANDLIABILITIES" :: []) data = _
  rw [tryFields_cons_of_no_match (by decide)]
  rw [tryFields_cons_of_no_match (by decide)]
  rw [tryFields_cons_of_no_match (by decide)]
  rw [tryFields_cons_of_populated hDI]
  rw [tryFields_cons_of_no_match (by decide)]
  rw [tryFields_cons_of_no_match (by decide)]
  rw [tryFields_cons_of_no_match (by decide)]
  rw [tryFields_cons_of_no_match (by decide)]
  conv_lhs => unfold tryFields
  rw [if_neg (by rw [hDIL]; simp)]
  rw [if_neg (by decide :
    ¬matchesField "DERIVATIVEINSTRUMENTSLIABILITIES" "derivative instruments" = false)]
  rw [if_neg (by decide :
    ¬("DERIVATIVEINSTRUMENTSLIABILITIES" = "DERIVATIVEINSTRUMENTS" ∧ (false : Bool) = false))]
  rw [if_neg (by simp :
    ¬("DERIVATIVEINSTRUMENTSLIABILITIES" = "DERIVATIVEINSTRUMENTSLIABILITIES" ∧
       (false : Bool) = true))]
  rw [if_pos hn, hv]


/-- C1: in a grid where a row labelled exactly "derivative instruments"
occurs once while the resolver's section state is ASSETS and once while it
is LIABILITIES (the section flag is `false`, having been switched by a
liabilities-side header), the Field Resolver records the first occurrence's
value under DERIVATIVEINSTRUMENTS and the second occurrence's value under
DERIVATIVEINSTRUMENTSLIABILITIES, never both under the same field; and the
section-affinity check rejects the asset-side field whenever the state is
not ASSETS (i.e. LIABILITIES or FUND_CAPITAL, which the code merges into
one flag value) and rejects the liability-side field whenever the state is
ASSETS, in that no row processed in the wrong state can touch the field. -/
theorem c1_derivative_instruments_section_disambiguation :
    (∀ (g : Grid) (pre mid post : List (List (Option String)))
       (rowA rowL : List (Option String)) (va vl : ℚ),
       g.rows = pre ++ rowA :: mid ++ rowL :: post →
       labelOf (cellAt rowA 0) = "derivative instruments" →
       labelOf (cellAt rowL 0) = "derivative instruments" →
       (∀ r ∈ pre ++ (mid ++ post), labelOf (cellAt r 0) ≠ "derivative instruments") →
       (processRows g.ncols ⟨[], true⟩ pre).inAssets = true →
       (processRows g.ncols ⟨[], true⟩ (pre ++ rowA :: mid)).inAssets = false →
       2 ≤ g.ncols →
       clean_number_string (cellAt rowA 1) false = some va →
       clean_number_string (cellAt rowL 1) false = some vl →
       (parse_balance_sheet_from_table g).lookup "DERIVATIVEINSTRUMENTS" = some va ∧
       (parse_balance_sheet_from_table g).lookup "DERIVATIVEINSTRUMENTSLIABILITIES" = some vl) ∧
    (∀ (ncols : Nat) (st : RState) (row : List (Option String)),
       st.inAssets = false →
       (processRow ncols st row).data.lookup "DERIVATIVEINSTRUMENTS"
         = st.data.lookup "DERIVATIVEINSTRUMENTS") ∧
    (∀ (ncols : Nat) (st : RState) (row : List (Option String)),
       st.inAssets = true →
       (processRow ncols st row).data.lookup "DERIVATIVEINSTRUMENTSLIABILITIES"
         = st.data.lookup "DERIVATIVEINSTRUMENTSLIABILITIES") := by
  refine ⟨?_, ?_, ?_⟩
  · intro g pre mid post rowA rowL va vl hg hA hL hoth hs1 hs2 hn hva hvl
    have hothpre : ∀ r ∈ pre, labelOf (cellAt r 0) ≠ "derivative instruments" :=
      fun r hr => hoth r (by simp [hr])
    have hothmid : ∀ r ∈ mid, labelOf (cellAt r 0) ≠ "derivative instruments" :=
      fun r hr => hoth r (by simp [hr])
    have hothpost : ∀ r ∈ post, labelOf (cellAt r 0) ≠ "derivative instruments" :=
      fun r hr => hoth r (by simp [hr])
    -- the pipeline states
    have hne : g.rows.isEmpty = false := by
      rw [hg]
      cases pre <;> rfl
    unfold parse_balance_sheet_from_table
    rw [if_neg (by simp [hne])]
    rw [hg]
    have hdecomp : processRows g.ncols ⟨[], true⟩ (pre ++ rowA :: mid ++ rowL :: post)
        = processRows g.ncols
            (processRow g.ncols
              (processRows g.ncols
                (processRow g.ncols (processRows g.ncols ⟨[], true⟩ pre) rowA)
                mid)
              rowL)
            post := by
      rw [processRows_append, processRows_cons, processRows_append, processRows_cons]
    set st1 := processRows g.ncols ⟨[], true⟩ pre with hst1
    -- facts about st1
    have hpre := @processRows_preserve_derivs g.ncols pre (⟨[], true⟩ : RState) hothpre
    have hDI1 : st1.data.lookup "DERIVATIVEINSTRUMENTS" = none := by
      rw [← hst1] at hpre
      exact hpre.1
    have hDIL1 : st1.data.lookup "DERIVATIVEINSTRUMENTSLIABILITIES" = none := by
      rw [← hst1] at hpre
      exact hpre.2
    -- processing rowA
    have hrowA : processRow g.ncols st1 rowA
        = { st1 with data := ("DERIVATIVEINSTRUMENTS", va) :: st1.data } := by
      rw [processRow_data_row hA (by decide) (by decide) (by decide) (by decide) (by decide)]
      rw [hs1]
      rw [tryFields_run_DI hDI1 hn hva]
    have hDI2 : (processRow g.ncols st1 rowA).data.lookup "DERIVATIVEINSTRUMENTS"
        = some va := by
      rw [hrowA]
      simp [List.lookup_cons]
    have hDIL2 : (processRow g.ncols st1 rowA).data.lookup "DERIVATIVEINSTRUMENTSLIABILITIES"
        = none := by
      rw [hrowA]
      show (("DERIVATIVEINSTRUMENTS", va) :: st1.data).lookup
        "DERIVATIVEINSTRUMENTSLIABILITIES" = none
      rw [List.lookup_cons, beq_eq_false_iff_ne.mpr (by decide)]
      exact hDIL1
    have hmid := @processRows_preserve_derivs g.ncols mid (processRow g.ncols st1 rowA) hothmid
    have hDI3 : (processRows g.ncols (processRow g.ncols st1 rowA) mid).data.lookup
        "DERIVATIVEINSTRUMENTS" = some va := hmid.1.trans hDI2
    have hDIL3 : (processRows g.ncols (processRow g.ncols st1 rowA) mid).data.lookup
        "DERIVATIVEINSTRUMENTSLIABILITIES" = none := hmid.2.trans hDIL2
    have hst3assets : (processRows g.ncols (processRow g.ncols st1 rowA) mid).inAssets
        = false := by
      rw [processRows_append, processRows_cons] at hs2
      exact hs2
    have hrowL : processRow g.ncols (processRows g.ncols (processRow g.ncols st1 rowA) mid) rowL
        = RState.mk (("DERIVATIVEINSTRUMENTSLIABILITIES", vl)
              :: (processRows g.ncols (processRow g.ncols st1 rowA) mid).data)
            (processRows g.ncols (processRow g.ncols st1 rowA) mid).inAssets := by
      rw [processRow_data_row hL (by decide) (by decide) (by decide) (by decide) (by decide)]
      rw [hst3assets]
      rw [tryFields_run_DIL (by rw [hDI3]; rfl) hDIL3 hn hvl]
    have hDI4 : (processRow g.ncols (processRows g.ncols (processRow g.ncols st1 rowA) mid)
        rowL).data.lookup "DERIVATIVEINSTRUMENTS" = some va := by
      rw [hrowL]
      show (("DERIVATIVEINSTRUMENTSLIABILITIES", vl)
        :: (processRows g.ncols (processRow g.ncols st1 rowA) mid).data).lookup
        "DERIVATIVEINSTRUMENTS" = some va
      rw [List.lookup_cons, beq_eq_false_iff_ne.mpr (by decide)]
      exact hDI3
    have hDIL4 : (processRow g.ncols (processRows g.ncols (processRow g.ncols st1 rowA) mid)
        rowL).data.lookup "DERIVATIVEINSTRUMENTSLIABILITIES" = some vl := by
      rw [hrowL]
      simp [List.lookup_cons]
    have hpost := @processRows_preserve_derivs g.ncols post
      (processRow g.ncols (processRows g.ncols (processRow g.ncols st1 rowA) mid) rowL) hothpost
    rw [hdecomp]
    exact ⟨hpost.1.trans hDI4, hpost.2.trans hDIL4⟩
  · intro ncols st row hst
    unfold processRow
    by_cases he : labelOf (cellAt row 0) = ""
    · rw [if_pos he]
    · rw [if_neg he]
      by_cases ha : labelOf (cellAt row 0) = "assets"
      · rw [if_pos ha]
      · rw [if_neg ha]
        by_cases hl : labelOf (cellAt row 0) = "liabilities" ∨
            labelOf (cellAt row 0) = "fund capital and liabilities"
        · rw [if_pos hl]
        · rw [if_neg hl]
          by_cases hf : labelOf (cellAt row 0) = "fund capital"
          · rw [if_pos hf]
          · rw [if_neg hf]
            show (tryFields ncols st.inAssets (labelOf (cellAt row 0)) (cellAt row 1)
              fieldOrder st.data).lookup "DERIVATIVEINSTRUMENTS" = _
            rw [hst]
            exact tryFields_DI_not_assets fieldOrder st.data
  · intro ncols st row hst
    unfold processRow
    by_cases he : labelOf (cellAt row 0) = ""
    · rw [if_pos he]
    · rw [if_neg he]
      by_cases ha : labelOf (cellAt row 0) = "assets"
      · rw [if_pos ha]
      · rw [if_neg ha]
        by_cases hl : labelOf (cellAt row 0) = "liabilities" ∨
            labelOf (cellAt row 0) = "fund capital and liabilities"
        · rw [if_pos hl]
        · rw [if_neg hl]
          by_cases hf : labelOf (cellAt row 0) = "fund capital"
          · rw [if_pos hf]
          · rw [if_neg hf]
            show (tryFields ncols st.inAssets (labelOf (cellAt row 0)) (cellAt row 1)
              fieldOrder st.data).lookup "DERIVATIVEINSTRUMENTSLIABILITIES" = _
            rw [hst]
            exact tryFields_DIL_assets fieldOrder st.data


/-- Witness for C1 on a concrete four-row grid: assets header, a
"Derivative instruments" row carrying 5, a liabilities header, and a second
"Derivative instruments" row carrying -7. -/
theorem c1_derivative_instruments_section_disambiguation_witness :
    (parse_balance_sheet_from_table
        ⟨2, [[some "Assets"],
             [some "Derivative instruments", some "5"],
             [some "Liabilities"],
             [some "Derivative instruments", some "-7"]]⟩).lookup
      "DERIVATIVEINSTRUMENTS" = some ((Int.ofNat 5 : Int) : ℚ) ∧
    (parse_balance_sheet_from_table
        ⟨2, [[some "Assets"],
             [some "Derivative instruments", some "5"],
             [some "Liabilities"],
             [some "Derivative instruments", some "-7"]]⟩).lookup
      "DERIVATIVEINSTRUMENTSLIABILITIES" = some ((-Int.ofNat 7 : Int) : ℚ) := by
  have hva : clean_number_string
      (cellAt [some "Derivative instruments", some "5"] 1) false
      = some ((Int.ofNat 5 : Int) : ℚ) := by
    have h := clean_number_string_digit_sep_mix false "5".data (by decide) (by decide)
    rw [show natOfDigits ("5".data.filter Char.isDigit) = 5 from by decide] at h
    exact h
  have hvl : clean_number_string
      (cellAt [some "Derivative instruments", some "-7"] 1) false
      = some ((-Int.ofNat 7 : Int) : ℚ) := by
    have h := clean_number_string_digit_sep_mix true "7".data (by decide) (by decide)
    rw [show natOfDigits ("7".data.filter Char.isDigit) = 7 from by decide] at h
    exact h
  exact (c1_derivative_instruments_section_disambiguation).1
    ⟨2, [[some "Assets"],
         [some "Derivative instruments", some "5"],
         [some "Liabilities"],
         [some "Derivative instruments", some "-7"]]⟩
    [[some "Assets"]] [[some "Liabilities"]] []
    [some "Derivative instruments", some "5"] [some "Derivative instruments", some "-7"]
    ((Int.ofNat 5 : Int) : ℚ) ((-Int.ofNat 7 : Int) : ℚ)
    rfl (by decide) (by decide) (by decide) (by decide) (by decide) (by decide)
    hva hvl


/-! ### The Output Assembler (`create_output`, pdf_parser_enhanced.py 536–624)

`OUTPUT_HEADERS` is the fixed column schema from config.py (lines 9–31).
A row is produced for each entry of `all_data` in iteration order
(`for year, data in all_data.items()`, i.e. dict insertion order).  For each
header after the first, `header.split('.')` yields the catalogue field name
(`parts[1]`, with `'LEVEL'` appended when `parts[2] == 'LEVEL'`), and the
cell is `data.get(field_name)`.  The Excel-writing part of the source is
I/O and outside the embedding; the produced table rows are the model. -/

def OUTPUT_HEADERS : List String :=
  ["Unnamed: 0",
   "AP2.FUNDCAPITALCARRIEDFORWARD.LEVEL.NONE.H.1@AP2",
   "AP2.NETOUTFLOWSTOTHENATIONALPENSIONSYSTEM.FLOW.NONE.H.1@AP2",
   "AP2.TOTAL.FLOW.NONE.H.1@AP2",
   "AP2.EQUITIESANDPARTICIPATIONSLISTED.FLOW.NONE.H.1@AP2",
   "AP2.EQUITIESANDPARTICIPATIONSUNLISTED.FLOW.NONE.H.1@AP2",
   "AP2.BONDSANDOTHERFIXEDINCOMESECURITIES.FLOW.NONE.H.1@AP2",
   "AP2.DERIVATIVEINSTRUMENTS.FLOW.NONE.H.1@AP2",
   "AP2.CASHANDBANKBALANCES.FLOW.NONE.H.1@AP2",
   "AP2.OTHERASSETS.FLOW.NONE.H.1@AP2",
   "AP2.PREPAIDEXPENSESANDACCRUEDINCOME.FLOW.NONE.H.1@AP2",
   "AP2.TOTALASSETS.FLOW.NONE.H.1@AP2",
   "AP2.DERIVATIVEINSTRUMENTSLIABILITIES.FLOW.NONE.H.1@AP2",
   "AP2.OTHERLIABILITIES.FLOW.NONE.H.1@AP2",
   "AP2.DEFERREDINCOMEANDACCRUEDEXPENSES.FLOW.NONE.H.1@AP2",
   "AP2.TOTALLIABILITIES.FLOW.NONE.H.1@AP2",
   "AP2.FUNDCAPITALCARRIEDFORWARD.FLOW.NONE.H.1@AP2",
   "AP2.NETPAYMENTSTOTHENATIONALPENSIONSYSTEM.FLOW.NONE.H.1@AP2",
   "AP2.NETRESULTFORTHEPERIOD.FLOW.NONE.H.1@AP2",
   "AP2.TOTALFUNDCAPITAL.FLOW.NONE.H.1@AP2",
   "AP2.TOTALFUNDCAPITALANDLIABILITIES.FLOW.NONE.H.1@AP2"]

/-- Python `str.split('.')`. -/
def splitDot : List Char → List (List Char)
  | [] => [[]]
  | c :: r =>
    if c = '.' then [] :: splitDot r
    else
      match splitDot r with
      | h :: t => (c :: h) :: t
      | [] => [[c]]

/-- The catalogue field addressed by an output header (lines 552–563). -/
def headerField (h : String) : Option String :=
  match splitDot h.data with
  | _ :: p1 :: p2 :: _ =>
    some (if p2 = "LEVEL".data then String.mk p1 ++ "LEVEL" else String.mk p1)
  | _ :: p1 :: [] => some (String.mk p1)
  | _ => none

def outputCell (data : List (String × ℚ)) (h : String) : Option ℚ :=
  match headerField h with
  | some f => data.lookup f
  | none => none

def create_output (all_data : List (Nat × List (String × ℚ))) :
    List (Nat × List (Option ℚ)) :=
  all_data.map (fun yd => (yd.1, (OUTPUT_HEADERS.drop 1).map (outputCell yd.2)))

/-- C3 (counterexample): `create_output` emits rows in `all_data` iteration
order; a batch processed in the order 2024, 2023 produces rows whose year
column reads [2024, 2023], which is not ascending. -/
theorem c3_counterexample :
    (create_output [(2024, []), (2023, [])]).map Prod.fst = [2024, 2023] ∧
    ¬ List.Sorted (· ≤ ·) ((create_output [(2024, []), (2023, [])]).map Prod.fst) := by
  constructor
  · rfl
  · rw [show (create_output [(2024, []), (2023, [])]).map Prod.fst
      = [2024, 2023] from rfl]
    decide

/-- C3 (amended): the Output Assembler produces exactly one row per batch
entry, in the batch's (processing / dict-insertion) order rather than
year-ascending order; every row has the year first and then exactly 20
cells, one per catalogue column of the fixed `OUTPUT_HEADERS` schema, each
cell the lookup of that header's field — the same fixed column layout on
every run. -/
theorem c3_amended_rows_in_processing_order_fixed_schema
    (all_data : List (Nat × List (String × ℚ))) :
    (create_output all_data).map Prod.fst = all_data.map Prod.fst ∧
    (∀ row ∈ create_output all_data, row.2.length = 20) ∧
    OUTPUT_HEADERS.length = 21 ∧
    (∀ yd ∈ all_data,
       (yd.1, (OUTPUT_HEADERS.drop 1).map (outputCell yd.2)) ∈ create_output all_data) := by
  refine ⟨?_, ?_, rfl, ?_⟩
  · unfold create_output
    rw [List.map_map]
    rfl
  · intro row hrow
    unfold create_output at hrow
    rw [List.mem_map] at hrow
    obtain ⟨yd, hyd, hr⟩ := hrow
    rw [← hr]
    simp
    rfl
  · intro yd hyd
    unfold create_output
    exact List.mem_map.mpr ⟨yd, hyd, rfl⟩

/-- Witness for the amended C3 on a one-entry batch. -/
theorem c3_amended_rows_in_processing_order_fixed_schema_witness :
    (create_output [(2023, ([] : List (String × ℚ)))]).map Prod.fst
      = [(2023, ([] : List (String × ℚ)))].map Prod.fst :=
  (c3_amended_rows_in_processing_order_fixed_schema
    [(2023, ([] : List (String × ℚ)))]).1


/-! ### Validation & Reconciliation (`validate_balance_sheet`, lines 506–533)

The source reads the mapping, counts checks and logs; it never assigns into
`data` and raises no error (absolute difference and comparison of Python
ints are total).  Check 1 compares TOTALASSETS with
TOTALFUNDCAPITALANDLIABILITIES; check 2 compares TOTALFUNDCAPITAL +
TOTALLIABILITIES with TOTALFUNDCAPITALANDLIABILITIES; both use the fixed
tolerance `diff <= 100`. -/

def check1_result (data : List (String × ℚ)) : Option Bool :=
  match data.lookup "TOTALASSETS", data.lookup "TOTALFUNDCAPITALANDLIABILITIES" with
  | some a, some b => some (|a - b| ≤ 100)
  | _, _ => none

def check2_result (data : List (String × ℚ)) : Option Bool :=
  match data.lookup "TOTALFUNDCAPITAL", data.lookup "TOTALLIABILITIES",
      data.lookup "TOTALFUNDCAPITALANDLIABILITIES" with
  | some f, some l, some t => some (|f + l - t| ≤ 100)
  | _, _, _ => none

/-- `(validations_passed, total_validations)`. -/
def validate_balance_sheet (data : List (String × ℚ)) : Nat × Nat :=
  let r1 : Nat × Nat :=
    match check1_result data with
    | some true => (1, 1)
    | some false => (0, 1)
    | none => (0, 0)
  let r2 : Nat × Nat :=
    match check2_result data with
    | some true => (1, 1)
    | some false => (0, 1)
    | none => (0, 0)
  (r1.1 + r2.1, r1.2 + r2.2)

/-- Step 7 of `parse_balance_sheet_adaptive` (lines 497–499): validation is
called for a nonempty mapping, its result is discarded, and the mapping
flows on unchanged. -/
def run_validation_step (data : List (String × ℚ)) : List (String × ℚ) :=
  if data.isEmpty then data
  else
    let _ := validate_balance_sheet data
    data

/-- C8: validation is advisory.  It never changes the extraction mapping
(the mapping after the validation step equals the mapping before, so a
failed check cannot remove the row from the output); the
assets-equals-combined-total check is evaluated exactly when both required
fields are present, in which case its flag is `|a - b| <= 100` — true at
difference 0 (within the fixed tolerance 100) and false at difference 150. -/
theorem c8_validation_advisory_only :
    (∀ data : List (String × ℚ), run_validation_step data = data) ∧
    (∀ (data : List (String × ℚ)) (a b : ℚ),
       data.lookup "TOTALASSETS" = some a →
       data.lookup "TOTALFUNDCAPITALANDLIABILITIES" = some b →
       check1_result data = some (decide (|a - b| ≤ 100)) ∧
       (|a - b| = 0 → check1_result data = some true) ∧
       (|a - b| = 150 → check1_result data = some false)) ∧
    (∀ data : List (String × ℚ),
       data.lookup "TOTALASSETS" = none ∨
       data.lookup "TOTALFUNDCAPITALANDLIABILITIES" = none →
       check1_result data = none) := by
  refine ⟨?_, ?_, ?_⟩
  · intro data
    unfold run_validation_step
    by_cases h : data.isEmpty = true
    · rw [if_pos h]
    · rw [if_neg h]
  · intro data a b ha hb
    have hc : check1_result data = some (decide (|a - b| ≤ 100)) := by
      unfold check1_result
      rw [ha, hb]
    refine ⟨hc, ?_, ?_⟩
    · intro h0
      rw [hc]
      norm_num [h0]
    · intro h150
      rw [hc]
      norm_num [h150]
  · intro data h
    unfold check1_result
    rcases h with h | h
    · rw [h]
    · rw [h]
      cases data.lookup "TOTALASSETS" <;> rfl

/-- Witness for C8: a mapping with both totals equal to 362451 passes check
1; replacing the combined total by 362301 (difference 150) fails it; the
mapping itself is unchanged by the validation step in both cases. -/
theorem c8_validation_advisory_only_witness :
    run_validation_step [("TOTALASSETS", (362451 : ℚ)),
        ("TOTALFUNDCAPITALANDLIABILITIES", (362451 : ℚ))]
      = [("TOTALASSETS", (362451 : ℚ)), ("TOTALFUNDCAPITALANDLIABILITIES", (362451 : ℚ))] ∧
    check1_result [("TOTALASSETS", (362451 : ℚ)),
        ("TOTALFUNDCAPITALANDLIABILITIES", (362451 : ℚ))] = some true ∧
    check1_result [("TOTALASSETS", (362451 : ℚ)),
        ("TOTALFUNDCAPITALANDLIABILITIES", (362301 : ℚ))] = some false := by
  refine ⟨c8_validation_advisory_only.1 _, ?_, ?_⟩
  · exact ((c8_validation_advisory_only.2.1
      [("TOTALASSETS", (362451 : ℚ)), ("TOTALFUNDCAPITALANDLIABILITIES", (362451 : ℚ))]
      362451 362451 rfl rfl).2.1 (by norm_num))
  · exact ((c8_validation_advisory_only.2.1
      [("TOTALASSETS", (362451 : ℚ)), ("TOTALFUNDCAPITALANDLIABILITIES", (362301 : ℚ))]
      362451 362301 rfl rfl).2.2 (by norm_num))


/-! ### The Page Locator (`find_balance_sheet_page_fitz`, lines 59–100) and
the Structural Table Extractor (`extract_balance_sheet_with_camelot`,
lines 138–208)

Both loops share the same selection shape: scan candidates in order, keep
the first strict improvement over the running best (initially 0), and at
the end require the best score to reach 30.  `bestScanAux` models that
loop once, parameterized by the score function. -/

def strContains (s sub : String) : Bool := searchLit sub.data s.data

/-- The additive keyword rubric of lines 69–89, applied to the lowercased
page text. -/
def scorePage (text : String) : Int :=
  let t := pyLower text
  (if strContains t "balance sheet" then 30 else 0)
  + (if strContains t "sek million" then 15 else 0)
  + (if strContains t "total assets" && strContains t "liabilities" then 20 else 0)
  + (if strContains t "fund capital" then 15 else 0)
  + (if strContains t "listed" && strContains t "unlisted" then 10 else 0)
  - (if strContains t "key ratios" then 15 else 0)
  - (if strContains t "ten-year performance" then 15 else 0)
  - (if strContains t "income statement" && !strContains t "balance sheet" then 10 else 0)

def bestScanAux {α : Type} (f : α → Int) :
    List α → Nat → Option (Nat × α) → Int → Option (Nat × α) × Int
  | [], _, bp, bs => (bp, bs)
  | x :: xs, idx, bp, bs =>
    if bs < f x then bestScanAux f xs (idx + 1) (some (idx, x)) (f x)
    else bestScanAux f xs (idx + 1) bp bs

def bestScan {α : Type} (f : α → Int) (xs : List α) : Option (Nat × α) × Int :=
  bestScanAux f xs 0 none 0

/-- Page Locator: the winning page is reported 1-indexed, and a best score
below 30 (or no page scoring above the initial 0) returns `none`. -/
def find_balance_sheet_page_fitz (pages : List String) : Option Nat :=
  match bestScan scorePage pages with
  | (some (i, _), bs) => if 30 ≤ bs then some (i + 1) else none
  | (none, _) => none

theorem bestScanAux_no_improve {α : Type} (f : α → Int) :
    ∀ (xs : List α) (idx : Nat) (bp : Option (Nat × α)) (bs : Int),
      (∀ (j : Nat) (hj : j < xs.length), f (xs.get ⟨j, hj⟩) ≤ bs) →
      bestScanAux f xs idx bp bs = (bp, bs) := by
  intro xs
  induction xs with
  | nil => intro idx bp bs h; rfl
  | cons x xs' ih =>
    intro idx bp bs h
    have hx : f x ≤ bs := h 0 (by simp)
    unfold bestScanAux
    rw [if_neg (by omega)]
    exact ih (idx + 1) bp bs (fun j hj => h (j + 1) (by simpa using hj))

theorem bestScanAux_improve {α : Type} (f : α → Int) :
    ∀ (xs : List α) (j : Nat) (hj : j < xs.length) (idx : Nat)
      (bp : Option (Nat × α)) (bs : Int),
      bs < f (xs.get ⟨j, hj⟩) →
      (∀ (k : Nat) (hk : k < j), f (xs.get ⟨k, Nat.lt_trans hk hj⟩) < f (xs.get ⟨j, hj⟩)) →
      (∀ (k : Nat) (hk : k < xs.length), f (xs.get ⟨k, hk⟩) ≤ f (xs.get ⟨j, hj⟩)) →
      bestScanAux f xs idx bp bs = (some (idx + j, xs.get ⟨j, hj⟩), f (xs.get ⟨j, hj⟩)) := by
  intro xs
  induction xs with
  | nil => intro j hj; exact absurd hj (by simp)
  | cons x xs' ih =>
    intro j hj idx bp bs himp hbefore hall
    cases j with
    | zero =>
      unfold bestScanAux
      rw [if_pos (by simpa using himp)]
      have hrest : ∀ (k : Nat) (hk : k < xs'.length),
          f (xs'.get ⟨k, hk⟩) ≤ f x := by
        intro k hk
        have := hall (k + 1) (by simpa using hk)
        simpa using this
      rw [bestScanAux_no_improve f xs' (idx + 1) (some (idx, x)) (f x) hrest]
      simp
    | succ j' =>
      have hj' : j' < xs'.length := by simpa using hj
      have hx : f x < f ((x :: xs').get ⟨j' + 1, hj⟩) := by
        have := hbefore 0 (Nat.succ_pos j')
        simpa using this
      have hget : (x :: xs').get ⟨j' + 1, hj⟩ = xs'.get ⟨j', hj'⟩ := rfl
      unfold bestScanAux
      by_cases hbx : bs < f x
      · rw [if_pos hbx]
        have hres := ih j' hj' (idx + 1) (some (idx, x)) (f x)
          (by rw [← hget]; exact hx)
          (by
            intro k hk
            have := hbefore (k + 1) (by omega)
            simpa using this)
          (by
            intro k hk
            have := hall (k + 1) (by simpa using hk)
            simpa using this)
        rw [hres, hget]
        have : idx + 1 + j' = idx + (j' + 1) := by omega
        rw [this]
      · rw [if_neg hbx]
        have hres := ih j' hj' (idx + 1) bp bs
          (by rw [← hget]; exact himp)
          (by
            intro k hk
            have := hbefore (k + 1) (by omega)
            simpa using this)
          (by
            intro k hk
            have := hall (k + 1) (by simpa using hk)
            simpa using this)
        rw [hres, hget]
        have : idx + 1 + j' = idx + (j' + 1) := by omega
        rw [this]

theorem exists_first_argmax {α : Type} (f : α → Int) :
    ∀ (xs : List α), xs ≠ [] →
      ∃ (j : Nat) (hj : j < xs.length),
        (∀ (k : Nat) (hk : k < xs.length), f (xs.get ⟨k, hk⟩) ≤ f (xs.get ⟨j, hj⟩)) ∧
        (∀ (k : Nat) (hk : k < j),
          f (xs.get ⟨k, Nat.lt_trans hk hj⟩) < f (xs.get ⟨j, hj⟩)) := by
  intro xs
  induction xs with
  | nil => intro h; exact absurd rfl h
  | cons x xs' ih =>
    intro _
    by_cases hxs : xs' = []
    · subst hxs
      refine ⟨0, by simp, ?_, ?_⟩
      · intro k hk
        have hk0 : k = 0 := by simpa using hk
        subst hk0
        exact le_refl _
      · intro k hk
        exact absurd hk (by omega)
    · obtain ⟨j', hj', hall', hbefore'⟩ := ih hxs
      by_cases hcmp : f (xs'.get ⟨j', hj'⟩) ≤ f x
      · refine ⟨0, by simp, ?_, ?_⟩
        · intro k hk
          cases k with
          | zero => exact le_refl _
          | succ k' =>
            have hk' : k' < xs'.length := by simpa using hk
            show f (xs'.get ⟨k', hk'⟩) ≤ f x
            exact le_trans (hall' k' hk') hcmp
        · intro k hk
          exact absurd hk (by omega)
      · push_neg at hcmp
        refine ⟨j' + 1, by simpa using hj', ?_, ?_⟩
        · intro k hk
          cases k with
          | zero =>
            show f x ≤ f (xs'.get ⟨j', hj'⟩)
            exact le_of_lt hcmp
          | succ k' =>
            have hk' : k' < xs'.length := by simpa using hk
            show f (xs'.get ⟨k', hk'⟩) ≤ f (xs'.get ⟨j', hj'⟩)
            exact hall' k' hk'
        · intro k hk
          cases k with
          | zero =>
            show f x < f (xs'.get ⟨j', hj'⟩)
            exact hcmp
          | succ k' =>
            have hk' : k' < j' := by omega
            show f (xs'.get ⟨k', Nat.lt_trans hk' hj'⟩) < f (xs'.get ⟨j', hj'⟩)
            exact hbefore' k' hk'


/-- Total characterization of the shared selection loop: either no
candidate beats the initial 0 and nothing was selected, or the first index
attaining the maximum (which is positive) was selected together with its
score. -/
theorem bestScan_char {α : Type} (f : α → Int) (xs : List α) :
    ((∀ (j : Nat) (hj : j < xs.length), f (xs.get ⟨j, hj⟩) ≤ 0) ∧
       bestScan f xs = (none, 0)) ∨
    (∃ (j : Nat) (hj : j < xs.length),
       0 < f (xs.get ⟨j, hj⟩) ∧
       (∀ (k : Nat) (hk : k < xs.length), f (xs.get ⟨k, hk⟩) ≤ f (xs.get ⟨j, hj⟩)) ∧
       (∀ (k : Nat) (hk : k < j),
         f (xs.get ⟨k, Nat.lt_trans hk hj⟩) < f (xs.get ⟨j, hj⟩)) ∧
       bestScan f xs = (some (j, xs.get ⟨j, hj⟩), f (xs.get ⟨j, hj⟩))) := by
  by_cases hne : xs = []
  · subst hne
    left
    exact ⟨fun j hj => absurd hj (by simp), rfl⟩
  · obtain ⟨j, hj, hall, hbefore⟩ := exists_first_argmax f xs hne
    by_cases hpos : 0 < f (xs.get ⟨j, hj⟩)
    · right
      refine ⟨j, hj, hpos, hall, hbefore, ?_⟩
      unfold bestScan
      have := bestScanAux_improve f xs j hj 0 none 0 hpos hbefore hall
      simpa using this
    · left
      push_neg at hpos
      constructor
      · intro k hk
        exact le_trans (hall k hk) hpos
      · unfold bestScan
        exact bestScanAux_no_improve f xs 0 none 0
          (fun k hk => le_trans (hall k hk) hpos)

/-- C4: the Page Locator returns exactly the 1-indexed page with the
strict-maximum keyword score (ties resolved in favour of the earlier page:
every earlier page scores strictly lower, every page scores no higher),
provided that maximum reaches the fixed confidence floor 30; whenever no
page reaches 30 it returns `none`. -/
theorem c4_page_locator_strict_max_with_floor (pages : List String) (p : Nat) :
    find_balance_sheet_page_fitz pages = some p ↔
      ∃ hp : p - 1 < pages.length,
        1 ≤ p ∧ 30 ≤ scorePage (pages.get ⟨p - 1, hp⟩) ∧
        (∀ (k : Nat) (hk : k < pages.length),
          scorePage (pages.get ⟨k, hk⟩) ≤ scorePage (pages.get ⟨p - 1, hp⟩)) ∧
        (∀ (k : Nat) (hk : k < p - 1),
          scorePage (pages.get ⟨k, Nat.lt_trans hk hp⟩)
            < scorePage (pages.get ⟨p - 1, hp⟩)) := by
  constructor
  · intro hfind
    rcases bestScan_char scorePage pages with ⟨hall, heq⟩ | ⟨j, hj, hpos, hall, hbefore, heq⟩
    · unfold find_balance_sheet_page_fitz at hfind
      rw [heq] at hfind
      exact absurd hfind (by simp)
    · unfold find_balance_sheet_page_fitz at hfind
      rw [heq] at hfind
      dsimp only at hfind
      by_cases h30 : 30 ≤ scorePage (pages.get ⟨j, hj⟩)
      · rw [if_pos h30] at hfind
        have hp : p = j + 1 := by
          have := Option.some.inj hfind
          omega
        subst hp
        have hj1 : j + 1 - 1 = j := by omega
        refine ⟨by rw [hj1]; exact hj, by omega, ?_, ?_, ?_⟩
        · rw [show (⟨j + 1 - 1, by omega⟩ : Fin pages.length) = ⟨j, hj⟩ from by
            apply Fin.ext; simp]
          exact h30
        · intro k hk
          rw [show (⟨j + 1 - 1, by omega⟩ : Fin pages.length) = ⟨j, hj⟩ from by
            apply Fin.ext; simp]
          exact hall k hk
        · intro k hk
          rw [show (⟨j + 1 - 1, by omega⟩ : Fin pages.length) = ⟨j, hj⟩ from by
            apply Fin.ext; simp]
          exact hbefore k (by omega)
      · rw [if_neg h30] at hfind
        exact absurd hfind (by simp)
  · intro hspec
    obtain ⟨hp, hp1, h30, hall, hbefore⟩ := hspec
    have himp := bestScanAux_improve scorePage pages (p - 1) hp 0 none 0 (by omega) hbefore hall
    unfold find_balance_sheet_page_fitz bestScan
    rw [himp]
    dsimp only
    rw [if_pos h30]
    congr 1
    omega

/-- Witness for C4: on a two-page document whose second page carries the
balance-sheet vocabulary, the locator returns page 2. -/
theorem c4_page_locator_strict_max_with_floor_witness :
    find_balance_sheet_page_fitz
      ["introduction", "balance sheet total assets liabilities fund capital"]
      = some 2 :=
  (c4_page_locator_strict_max_with_floor
      ["introduction", "balance sheet total assets liabilities fund capital"] 2).mpr
    ⟨by decide, by decide, by decide, by decide, by decide⟩


/-- A cell rendered by `df.astype(str)`: pandas prints a missing value as
"nan". -/
def cellStr : Option String → String
  | none => "nan"
  | some s => s

/-- `' '.join(df.astype(str).values.flatten()).lower()` (row-major). -/
def gridText (g : Grid) : String :=
  pyLower (String.intercalate " " ((g.rows.flatten).map cellStr))

/-- The content-shape score of lines 174–197 / the identical loop body. -/
def gridScore (g : Grid) : Int :=
  (if 10 < g.rows.length then 10 else 0)
  + (if 3 ≤ g.ncols then 10 else 0)
  + (if strContains (gridText g) "listed" then 15 else 0)
  + (if strContains (gridText g) "assets" then 10 else 0)
  + (if strContains (gridText g) "liabilities" then 10 else 0)
  + (if strContains (gridText g) "fund capital" then 10 else 0)

/-- Strategy selection (lines 143–162): candidates come from the lattice
call, and the stream call runs exactly when lattice yielded nothing. -/
def camelot_tables (lattice stream : List Grid) : List Grid :=
  if lattice.isEmpty then stream else lattice

/-- Candidate selection with the confidence floor (lines 164–204). -/
def select_best_table (tables : List Grid) : Option Grid :=
  if tables.isEmpty then none
  else
    match bestScan gridScore tables with
    | (some (_, g), bs) => if 30 ≤ bs then some g else none
    | (none, _) => none

def extract_balance_sheet_with_camelot (lattice stream : List Grid) : Option Grid :=
  select_best_table (camelot_tables lattice stream)

/-- C5: the Structural Table Extractor consults the stream (borderless)
strategy's candidates exactly when the lattice (bordered) strategy yielded
zero grids; it returns a grid only when that grid is a maximal-scoring
candidate whose content-shape score reaches the floor 30; and when every
candidate scores below 30 it returns `none` so the caller falls back. -/
theorem c5_stream_only_when_lattice_empty_and_floor (lattice stream : List Grid) :
    (lattice = [] →
       extract_balance_sheet_with_camelot lattice stream = select_best_table stream) ∧
    (lattice ≠ [] →
       extract_balance_sheet_with_camelot lattice stream = select_best_table lattice) ∧
    (∀ g, extract_balance_sheet_with_camelot lattice stream = some g →
       ∃ (j : Nat) (hj : j < (camelot_tables lattice stream).length),
         g = (camelot_tables lattice stream).get ⟨j, hj⟩ ∧
         30 ≤ gridScore g ∧
         ∀ (k : Nat) (hk : k < (camelot_tables lattice stream).length),
           gridScore ((camelot_tables lattice stream).get ⟨k, hk⟩) ≤ gridScore g) ∧
    ((∀ (k : Nat) (hk : k < (camelot_tables lattice stream).length),
        gridScore ((camelot_tables lattice stream).get ⟨k, hk⟩) < 30) →
      extract_balance_sheet_with_camelot lattice stream = none) := by
  refine ⟨?_, ?_, ?_, ?_⟩
  · intro h
    unfold extract_balance_sheet_with_camelot camelot_tables
    rw [if_pos (by simp [h])]
  · intro h
    unfold extract_balance_sheet_with_camelot camelot_tables
    rw [if_neg (by simpa using h)]
  · intro g hg
    unfold extract_balance_sheet_with_camelot select_best_table at hg
    by_cases hemp : (camelot_tables lattice stream).isEmpty = true
    · rw [if_pos hemp] at hg
      exact absurd hg (by simp)
    · rw [if_neg hemp] at hg
      rcases bestScan_char gridScore (camelot_tables lattice stream) with
        ⟨hall, heq⟩ | ⟨j, hj, hpos, hall, hbefore, heq⟩
      · rw [heq] at hg
        exact absurd hg (by simp)
      · rw [heq] at hg
        dsimp only at hg
        by_cases h30 : 30 ≤ gridScore ((camelot_tables lattice stream).get ⟨j, hj⟩)
        · rw [if_pos h30] at hg
          have hgeq := Option.some.inj hg
          refine ⟨j, hj, hgeq.symm, ?_, ?_⟩
          · rw [← hgeq]
            exact h30
          · intro k hk
            rw [← hgeq]
            exact hall k hk
        · rw [if_neg h30] at hg
          exact absurd hg (by simp)
  · intro hlow
    unfold extract_balance_sheet_with_camelot select_best_table
    by_cases hemp : (camelot_tables lattice stream).isEmpty = true
    · rw [if_pos hemp]
    · rw [if_neg hemp]
      rcases bestScan_char gridScore (camelot_tables lattice stream) with
        ⟨hall, heq⟩ | ⟨j, hj, hpos, hall, hbefore, heq⟩
      · rw [heq]
      · rw [heq]
        dsimp only
        rw [if_neg (by
          have := hlow j hj
          omega)]

/-- Witness for C5: a single low-scoring stream candidate (reached because
lattice yielded nothing) is rejected by the floor. -/
theorem c5_stream_only_when_lattice_empty_and_floor_witness :
    extract_balance_sheet_with_camelot [] [⟨1, [[some "x"]]⟩] = none :=
  (c5_stream_only_when_lattice_empty_and_floor [] [⟨1, [[some "x"]]⟩]).2.2.2
    (by decide)


/-! ### `main` (pdf_parser_enhanced.py, lines 627–675)

The run outcome is modelled per document as the pair (year, extraction
mapping) that `parse_balance_sheet_adaptive` produced for it, in processing
order.  Folder discovery and file I/O are outside the embedding.  The two
empty-input conditions are handled by `logger.error(...)` followed by a
plain `return` — a normal completion producing no output table; the only
raising path is the generic `except ... raise` around unexpected I/O
exceptions, which no modelled operation triggers (`fatal` below). -/

inductive MainOutcome where
  | noPdfs : MainOutcome
  | noData : MainOutcome
  | output : List (Nat × List (Option ℚ)) → MainOutcome
  | fatal : String → MainOutcome

def isAbort : MainOutcome → Bool
  | MainOutcome.fatal _ => true
  | _ => false

/-- Python dict assignment `all_data[year] = data`: replace in place if the
year is present, else append. -/
def dictInsert (m : List (Nat × List (String × ℚ))) (k : Nat)
    (v : List (String × ℚ)) : List (Nat × List (String × ℚ)) :=
  if m.any (fun kv => kv.1 = k) then
    m.map (fun kv => if kv.1 = k then (k, v) else kv)
  else m ++ [(k, v)]

def main_collect (docs : List (Nat × List (String × ℚ))) :
    List (Nat × List (String × ℚ)) :=
  docs.foldl (fun m yd => if yd.2.isEmpty then m else dictInsert m yd.1 yd.2) []

def ap2_main (docs : List (Nat × List (String × ℚ))) : MainOutcome :=
  if docs.isEmpty then MainOutcome.noPdfs
  else
    let all_data := main_collect docs
    if all_data.isEmpty then MainOutcome.noData
    else MainOutcome.output (create_output all_data)

theorem dictInsert_ne_nil (m : List (Nat × List (String × ℚ))) (k : Nat)
    (v : List (String × ℚ)) : dictInsert m k v ≠ [] := by
  unfold dictInsert
  by_cases h : m.any (fun kv => kv.1 = k) = true
  · rw [if_pos h]
    intro hcon
    rw [List.map_eq_nil_iff] at hcon
    rw [hcon] at h
    exact absurd h (by simp)
  · rw [if_neg h]
    simp

theorem main_collect_step_ne_nil (m : List (Nat × List (String × ℚ)))
    (docs : List (Nat × List (String × ℚ))) (hm : m ≠ []) :
    docs.foldl (fun m yd => if yd.2.isEmpty then m else dictInsert m yd.1 yd.2) m ≠ [] := by
  induction docs generalizing m with
  | nil => exact hm
  | cons yd docs' ih =>
    show List.foldl _ (if yd.2.isEmpty then m else dictInsert m yd.1 yd.2) docs' ≠ []
    by_cases h : yd.2.isEmpty = true
    · rw [if_pos h]
      exact ih m hm
    · rw [if_neg h]
      exact ih (dictInsert m yd.1 yd.2) (dictInsert_ne_nil m yd.1 yd.2)

theorem main_collect_nil_of_all_empty (docs : List (Nat × List (String × ℚ)))
    (h : ∀ yd ∈ docs, yd.2 = []) : main_collect docs = [] := by
  unfold main_collect
  induction docs with
  | nil => rfl
  | cons yd docs' ih =>
    have h0 : yd.2 = [] := h yd (by simp)
    show List.foldl _ (if yd.2.isEmpty then [] else dictInsert [] yd.1 yd.2) docs' = []
    rw [if_pos (by simp [h0])]
    exact ih (fun x hx => h x (by simp [hx]))

theorem main_collect_ne_nil_of_exists (docs : List (Nat × List (String × ℚ)))
    (h : ∃ yd ∈ docs, yd.2 ≠ []) : main_collect docs ≠ [] := by
  unfold main_collect
  induction docs with
  | nil => obtain ⟨yd, hyd, _⟩ := h; exact absurd hyd (by simp)
  | cons yd docs' ih =>
    show List.foldl _ (if yd.2.isEmpty then [] else dictInsert [] yd.1 yd.2) docs' ≠ []
    by_cases h0 : yd.2.isEmpty = true
    · rw [if_pos h0]
      have hrest : ∃ x ∈ docs', x.2 ≠ [] := by
        obtain ⟨x, hx, hxne⟩ := h
        rcases List.mem_cons.mp hx with rfl | hx'
        · exact absurd (by simpa using h0) hxne
        · exact ⟨x, hx', hxne⟩
      exact ih hrest
    · rw [if_neg h0]
      exact main_collect_step_ne_nil (dictInsert [] yd.1 yd.2) docs'
        (dictInsert_ne_nil [] yd.1 yd.2)

/-- C9 (counterexample): an empty input document set makes `main` log a
diagnostic and return normally with no output table — `noPdfs`, which is
not an aborting failure, contradicting the claim's "an aborting failure,
not a normal completion". -/
theorem c9_counterexample :
    ap2_main [] = MainOutcome.noPdfs ∧ isAbort (ap2_main []) = false := by
  constructor
  · rfl
  · rfl

/-- C9 (amended): when the input document set is empty, or when no
processed document yields any field, the run stops with a clear diagnostic
and produces no output table — but by a normal early return
(`logger.error` + `return`), not an aborting failure; no modelled condition
aborts, and an output table is produced exactly when some document yields
a field. -/
theorem c9_amended_empty_input_normal_return (docs : List (Nat × List (String × ℚ))) :
    isAbort (ap2_main docs) = false ∧
    (docs = [] → ap2_main docs = MainOutcome.noPdfs) ∧
    (docs ≠ [] → (∀ yd ∈ docs, yd.2 = []) → ap2_main docs = MainOutcome.noData) ∧
    ((∃ yd ∈ docs, yd.2 ≠ []) →
      ap2_main docs = MainOutcome.output (create_output (main_collect docs))) := by
  have hmain2 : docs ≠ [] → (∀ yd ∈ docs, yd.2 = []) →
      ap2_main docs = MainOutcome.noData := by
    intro hne hall
    unfold ap2_main
    rw [if_neg (by simpa using hne)]
    rw [if_pos (by simp [main_collect_nil_of_all_empty docs hall])]
  have hmain3 : (∃ yd ∈ docs, yd.2 ≠ []) →
      ap2_main docs = MainOutcome.output (create_output (main_collect docs)) := by
    intro hex
    have hne : docs ≠ [] := by
      obtain ⟨yd, hyd, _⟩ := hex
      intro hcon
      rw [hcon] at hyd
      exact absurd hyd (by simp)
    unfold ap2_main
    rw [if_neg (by simpa using hne)]
    rw [if_neg (by simpa using main_collect_ne_nil_of_exists docs hex)]
  refine ⟨?_, ?_, hmain2, hmain3⟩
  · by_cases h1 : docs = []
    · subst h1
      rfl
    · by_cases h2 : ∀ yd ∈ docs, yd.2 = []
      · rw [hmain2 h1 h2]
        rfl
      · push_neg at h2
        rw [hmain3 (by simpa using h2)]
        rfl
  · intro h
    subst h
    rfl

/-- Witness for the amended C9: one document with one resolved field leads
to a produced output table; an all-empty batch leads to the no-data early
return. -/
theorem c9_amended_empty_input_normal_return_witness :
    ap2_main [(2023, [("TOTALASSETS", (5 : ℚ))])]
      = MainOutcome.output
          (create_output (main_collect [(2023, [("TOTALASSETS", (5 : ℚ))])])) ∧
    ap2_main [(2023, ([] : List (String × ℚ)))] = MainOutcome.noData := by
  constructor
  · exact (c9_amended_empty_input_normal_return
      [(2023, [("TOTALASSETS", (5 : ℚ))])]).2.2.2
      ⟨(2023, [("TOTALASSETS", (5 : ℚ))]), by simp, by simp⟩
  · exact (c9_amended_empty_input_normal_return
      [(2023, ([] : List (String × ℚ)))]).2.2.1 (by simp)
      (by intro yd hyd; rw [List.mem_singleton] at hyd; rw [hyd])


/-! ### The Proximity Scorer (`SmartExtractor`, smart_extractor.py)

A page is a list of text blocks as returned by `page.get_text("dict")`:
each block has a type (0 = text) and lines of spans; a span carries its
text and bounding box.  Only the bbox origin (x, y) is consumed by the
scoring, so spans model exactly those coordinates. -/

structure Span where
  text : String
  x : ℚ
  y : ℚ

structure PLine where
  spans : List Span

structure Block where
  btype : Int
  lines : List PLine

/-- One step of `re.finditer(r'-?\d+\.?\d*', text)`: the greedy match at
the current position, if any, with the rest of the input. -/
def numTokenAt (cs : List Char) : Option (List Char × List Char) :=
  let neg : Bool := cs.head? = some '-'
  let cs1 := if neg then cs.tail else cs
  let ds := cs1.takeWhile Char.isDigit
  let r1 := cs1.dropWhile Char.isDigit
  if ds.isEmpty then none
  else
    match r1 with
    | '.' :: r2 =>
      let ds2 := r2.takeWhile Char.isDigit
      let r3 := r2.dropWhile Char.isDigit
      some ((if neg then ['-'] else []) ++ ds ++ '.' :: ds2, r3)
    | _ => some ((if neg then ['-'] else []) ++ ds, r1)

/-- All non-overlapping matches, scanning left to right.  The fuel is the
input length: every step consumes at least one character, so that much
fuel always suffices. -/
def finditerNums (fuel : Nat) (cs : List Char) : List (List Char) :=
  match fuel with
  | 0 => []
  | fuel' + 1 =>
    match cs with
    | [] => []
    | _ :: rest =>
      match numTokenAt cs with
      | some (tok, r) => tok :: finditerNums fuel' r
      | none => finditerNums fuel' rest

/-- Numbers found in one span with the span's bbox origin, after the
magnitude filter `abs(value) > 0.01 and abs(value) < 10000`
(lines 132–145). -/
def spanNumbers (sp : Span) : List (ℚ × ℚ × ℚ) :=
  ((finditerNums sp.text.data.length sp.text.data).filterMap
      (fun tok => pyFloat (String.mk tok))).filterMap
    (fun v => if 1 / 100 < |v| ∧ |v| < 10000 then some (v, sp.x, sp.y) else none)

def extract_numbers_with_positions (blocks : List Block) : List (ℚ × ℚ × ℚ) :=
  (((blocks.filter (fun b => b.btype = 0)).map (fun b =>
    ((b.lines.map (fun ln => (ln.spans.map spanNumbers).flatten)).flatten))).flatten)

/-- `line_text`: span texts joined with trailing blanks, lowercased and
stripped (lines 159–174). -/
def lineText (ln : PLine) : String :=
  pyLower (pyStrip (String.join (ln.spans.map (fun sp => sp.text ++ " "))))

/-- The line bbox starts from the first span's origin (lines 166–172);
lines without spans produce no keyword hit because every keyword is
nonempty, so the origin default is never consumed. -/
def lineOrigin (ln : PLine) : ℚ × ℚ :=
  match ln.spans with
  | [] => (0, 0)
  | sp :: _ => (sp.x, sp.y)

def find_keyword_positions (blocks : List Block) (keywords : List String) :
    List (String × ℚ × ℚ) :=
  ((blocks.filter (fun b => b.btype = 0)).map (fun b =>
    (b.lines.map (fun ln =>
      (keywords.filter (fun kw => strContains (lineText ln) (pyLower kw))).map
        (fun kw => (kw, (lineOrigin ln).1, (lineOrigin ln).2)))).flatten)).flatten

/-- `FIELD_KEYWORDS` (smart_extractor.py lines 19–40). -/
def FIELD_KEYWORDS (field : String) : List String :=
  if field = "FUNDCAPITALCARRIEDFORWARDLEVEL" then
    ["fund capital brought forward", "opening fund capital", "fund capital at start"]
  else if field = "NETOUTFLOWSTOTHENATIONALPENSIONSYSTEM" then
    ["net outflow", "net outflows", "net flow to pension", "pension system",
     "national pension system"]
  else if field = "TOTAL" then
    ["result amounted to sek", "net result for the period", "net result for the year",
     "result for the period, sek billion", "result for the year, sek billion"]
  else []

/-- `VALUE_RANGES` (lines 43–47). -/
def VALUE_RANGES (field : String) : Option (ℚ × ℚ) :=
  if field = "FUNDCAPITALCARRIEDFORWARDLEVEL" then some (300, 600)
  else if field = "NETOUTFLOWSTOTHENATIONALPENSIONSYSTEM" then some (-10, 0)
  else if field = "TOTAL" then some (-50, 50)
  else none

/-- Squared Euclidean distance.  The source takes the square root and
compares it with 50/100/200/300/500; both sides are nonnegative, so
carrying the square and comparing with the squared thresholds is
equivalent. -/
def distSq (p1 p2 : ℚ × ℚ) : ℚ :=
  (p1.1 - p2.1) ^ 2 + (p1.2 - p2.2) ^ 2

/-- `_calculate_score` (lines 195–248) over the squared distance. -/
def calculate_score (value : ℚ) (field : String) (dsq : ℚ) (keyword : String) : ℚ :=
  let prox : Option ℚ :=
    if dsq < 50 ^ 2 then some 50
    else if dsq < 100 ^ 2 then some 40
    else if dsq < 200 ^ 2 then some 30
    else if dsq < 300 ^ 2 then some 20
    else if dsq < 500 ^ 2 then some 10
    else none
  match prox with
  | none => 0
  | some p =>
    let rangeScore : ℚ :=
      match VALUE_RANGES field with
      | some (mn, mx) =>
        if mn ≤ value ∧ value ≤ mx then 40
        else if mn * (1 / 2) ≤ value ∧ value ≤ mx * (3 / 2) then 15
        else -50
      | none => 0
    let kwScore : ℚ :=
      if strContains keyword "brought forward" then 25
      else if strContains keyword "result amounted to sek" then 25
      else if strContains keyword "outflow" then 20
      else if strContains keyword "fund capital" then 15
      else if strContains keyword "result" then 15
      else 10
    max 0 (p + rangeScore + kwScore)

/-- The candidate list of lines 88–103, in the source's (keyword-major)
order; each entry keeps the value and its score. -/
def extract_candidates (blocks : List Block) (field : String) : List (ℚ × ℚ) :=
  let numbers := extract_numbers_with_positions blocks
  ((find_keyword_positions blocks (FIELD_KEYWORDS field)).map (fun kp =>
    numbers.filterMap (fun nv =>
      let s := calculate_score nv.1 field (distSq (kp.2.1, kp.2.2) (nv.2.1, nv.2.2)) kp.1
      if 0 < s then some (nv.1, s) else none))).flatten

/-- Python `max(candidates, key=score)`: the first element of maximal
score. -/
def pickBest : List (ℚ × ℚ) → Option (ℚ × ℚ)
  | [] => none
  | c :: cs => some (cs.foldl (fun best x => if best.2 < x.2 then x else best) c)

/-- `SmartExtractor.extract_from_page` (lines 52–115). -/
def extract_from_page (blocks : List Block) (field : String) : Option ℚ :=
  if (FIELD_KEYWORDS field).isEmpty then none
  else if (find_keyword_positions blocks (FIELD_KEYWORDS field)).isEmpty then none
  else
    match pickBest (extract_candidates blocks field) with
    | none => none
    | some best => some best.1


theorem foldl_pick_mem (cs : List (ℚ × ℚ)) :
    ∀ c, cs.foldl (fun best x => if best.2 < x.2 then x else best) c ∈ c :: cs := by
  induction cs with
  | nil => intro c; simp
  | cons x cs' ih =>
    intro c
    show cs'.foldl _ (if c.2 < x.2 then x else c) ∈ c :: x :: cs'
    have h := ih (if c.2 < x.2 then x else c)
    rcases List.mem_cons.mp h with h1 | h1
    · rw [h1]
      by_cases hc : c.2 < x.2
      · rw [if_pos hc]; simp
      · rw [if_neg hc]; simp
    · simp [h1]

theorem pickBest_mem {cs : List (ℚ × ℚ)} {c : ℚ × ℚ} (h : pickBest cs = some c) :
    c ∈ cs := by
  cases cs with
  | nil => exact absurd h (by simp [pickBest])
  | cons c0 cs' =>
    unfold pickBest at h
    have he := Option.some.inj h
    rw [← he]
    exact foldl_pick_mem cs' c0

/-- Every number that survives `_extract_numbers_with_positions` lies in
the open magnitude band (0.01, 10000). -/
theorem band_of_mem_numbers {blocks : List Block} {nv : ℚ × ℚ × ℚ}
    (h : nv ∈ extract_numbers_with_positions blocks) :
    1 / 100 < |nv.1| ∧ |nv.1| < 10000 := by
  unfold extract_numbers_with_positions at h
  rw [List.mem_flatten] at h
  obtain ⟨l1, hl1, hnv1⟩ := h
  rw [List.mem_map] at hl1
  obtain ⟨b, hb, hl1e⟩ := hl1
  rw [← hl1e] at hnv1
  rw [List.mem_flatten] at hnv1
  obtain ⟨l2, hl2, hnv2⟩ := hnv1
  rw [List.mem_map] at hl2
  obtain ⟨ln, hln, hl2e⟩ := hl2
  rw [← hl2e] at hnv2
  rw [List.mem_flatten] at hnv2
  obtain ⟨l3, hl3, hnv3⟩ := hnv2
  rw [List.mem_map] at hl3
  obtain ⟨sp, hsp, hl3e⟩ := hl3
  rw [← hl3e] at hnv3
  unfold spanNumbers at hnv3
  rw [List.mem_filterMap] at hnv3
  obtain ⟨v, hv, hve⟩ := hnv3
  by_cases hband : 1 / 100 < |v| ∧ |v| < 10000
  · rw [if_pos hband] at hve
    have := Option.some.inj hve
    rw [← this]
    exact hband
  · rw [if_neg hband] at hve
    exact absurd hve (by simp)

theorem cand_val_mem_numbers {blocks : List Block} {field : String} {c : ℚ × ℚ}
    (h : c ∈ extract_candidates blocks field) :
    ∃ nv ∈ extract_numbers_with_positions blocks, c.1 = nv.1 := by
  unfold extract_candidates at h
  rw [List.mem_flatten] at h
  obtain ⟨l1, hl1, hc1⟩ := h
  rw [List.mem_map] at hl1
  obtain ⟨kp, hkp, hl1e⟩ := hl1
  rw [← hl1e] at hc1
  rw [List.mem_filterMap] at hc1
  obtain ⟨nv, hnv, hce⟩ := hc1
  refine ⟨nv, hnv, ?_⟩
  by_cases hs : 0 < calculate_score nv.1 field
      (distSq (kp.2.1, kp.2.2) (nv.2.1, nv.2.2)) kp.1
  · rw [if_pos hs] at hce
    have := Option.some.inj hce
    rw [← this]
  · rw [if_neg hs] at hce
    exact absurd hce (by simp)

/-- C10: any value the Proximity Scorer returns for a page and ratio field
has absolute value strictly between 0.01 and 10000 — the magnitude filter
runs before scoring, so the scorer can never return exactly 0 and can never
return a millions-scale balance-sheet figure. -/
theorem c10_scorer_magnitude_band (blocks : List Block) (field : String) (v : ℚ)
    (h : extract_from_page blocks field = some v) :
    1 / 100 < |v| ∧ |v| < 10000 ∧ v ≠ 0 := by
  unfold extract_from_page at h
  by_cases h1 : (FIELD_KEYWORDS field).isEmpty = true
  · rw [if_pos h1] at h
    exact absurd h (by simp)
  · rw [if_neg h1] at h
    by_cases h2 : (find_keyword_positions blocks (FIELD_KEYWORDS field)).isEmpty = true
    · rw [if_pos h2] at h
      exact absurd h (by simp)
    · rw [if_neg h2] at h
      cases hpb : pickBest (extract_candidates blocks field) with
      | none =>
        rw [hpb] at h
        exact absurd h (by simp)
      | some best =>
        rw [hpb] at h
        have hv : v = best.1 := (Option.some.inj h).symm
        obtain ⟨nv, hnv, hval⟩ := cand_val_mem_numbers (pickBest_mem hpb)
        have hband := band_of_mem_numbers hnv
        rw [hv, hval]
        refine ⟨hband.1, hband.2, ?_⟩
        intro h0
        rw [h0, abs_zero] at hband
        exact absurd hband.1 (by norm_num)


/-- Witness page for C10: one text block whose single line carries the
span "net outflow" at (0, 0) and the span "-3" at (10, 0). -/
def c10Blocks : List Block :=
  [⟨0, [⟨[⟨"net outflow", 0, 0⟩, ⟨"-3", 10, 0⟩]⟩]⟩]

theorem c10_span1_numbers : spanNumbers ⟨"net outflow", 0, 0⟩ = [] := rfl

theorem c10_span2_numbers :
    spanNumbers ⟨"-3", 10, 0⟩ = [((-3 : ℚ), (10 : ℚ), (0 : ℚ))] := by
  have hf : pyFloat ⟨['-', '3']⟩ = some (-((natOfDigits ['3'] : Nat) : ℚ)) :=
    pyFloat_neg_digits (by decide) (by decide)
  have h3 : natOfDigits ['3'] = 3 := by decide
  have hf2 : pyFloat ⟨['-', '3']⟩ = some ((-3 : ℚ)) := by
    rw [hf, h3]; norm_num
  have hfind : finditerNums "-3".data.length "-3".data = [['-', '3']] := by decide
  have hband : (1 : ℚ) / 100 < |(-3 : ℚ)| ∧ |(-3 : ℚ)| < 10000 := by norm_num
  unfold spanNumbers
  rw [hfind]
  rw [List.filterMap_cons, hf2]
  rw [List.filterMap_nil, List.filterMap_cons, if_pos hband, List.filterMap_nil]

theorem c10_numbers :
    extract_numbers_with_positions c10Blocks = [((-3 : ℚ), (10 : ℚ), (0 : ℚ))] := by
  unfold extract_numbers_with_positions c10Blocks
  simp [c10_span1_numbers, c10_span2_numbers]

theorem c10_keywords :
    find_keyword_positions c10Blocks
        (FIELD_KEYWORDS "NETOUTFLOWSTOTHENATIONALPENSIONSYSTEM")
      = [("net outflow", (0 : ℚ), (0 : ℚ))] := rfl

theorem c10_score :
    calculate_score (-3) "NETOUTFLOWSTOTHENATIONALPENSIONSYSTEM"
        (distSq ((0 : ℚ), (0 : ℚ)) ((10 : ℚ), (0 : ℚ))) "net outflow" = 110 := by
  have hd : distSq ((0 : ℚ), (0 : ℚ)) ((10 : ℚ), (0 : ℚ)) = 100 := by
    unfold distSq; norm_num
  rw [hd]
  unfold calculate_score
  rw [if_pos (by norm_num : (100 : ℚ) < 50 ^ 2)]
  have hvr : VALUE_RANGES "NETOUTFLOWSTOTHENATIONALPENSIONSYSTEM"
      = some ((-10 : ℚ), (0 : ℚ)) := rfl
  rw [hvr]
  dsimp only
  rw [if_pos (by norm_num : (-10 : ℚ) ≤ -3 ∧ (-3 : ℚ) ≤ 0)]
  rw [if_neg (by decide : ¬ strContains "net outflow" "brought forward" = true)]
  rw [if_neg (by decide : ¬ strContains "net outflow" "result amounted to sek" = true)]
  rw [if_pos (by decide : strContains "net outflow" "outflow" = true)]
  norm_num

theorem c10_candidates :
    extract_candidates c10Blocks "NETOUTFLOWSTOTHENATIONALPENSIONSYSTEM"
      = [((-3 : ℚ), (110 : ℚ))] := by
  simp only [extract_candidates]
  rw [c10_keywords, c10_numbers]
  simp only [List.map_cons, List.map_nil, List.filterMap_cons, List.filterMap_nil]
  rw [c10_score]
  rw [if_pos (by norm_num : (0 : ℚ) < 110)]
  simp

theorem c10_eval :
    extract_from_page c10Blocks "NETOUTFLOWSTOTHENATIONALPENSIONSYSTEM"
      = some (-3 : ℚ) := by
  unfold extract_from_page
  rw [c10_keywords, c10_candidates]
  rfl

/-- Witness for C10: on the concrete page `c10Blocks` the scorer returns
-3 for the net-outflow field, and that value indeed lies strictly inside
the magnitude band and is nonzero. -/
theorem c10_scorer_magnitude_band_witness :
    (1 : ℚ) / 100 < |(-3 : ℚ)| ∧ |(-3 : ℚ)| < 10000 ∧ (-3 : ℚ) ≠ 0 :=
  c10_scorer_magnitude_band c10Blocks "NETOUTFLOWSTOTHENATIONALPENSIONSYSTEM"
    (-3) c10_eval

end AP2
